import Mathlib

/-!
Verification of the TTS failover wrapper in `Granny-voice/agent.py`.

The embedded code is the streaming failover core: `FallbackTTS`
(lines 75-165), `LoggedSynthesizeStream` (lines 168-199) and
`FallbackSynthesizeStream` (lines 202-323).  Backends (`openai.TTS`,
`elevenlabs.TTS`) are external collaborators; we model a backend by
whether its `stream(text)` / `synthesize(text)` calls raise, and by the
audio-frame script one of its connections produces as a function of the
input it has received (initial text, pushed chunks, segment-end marker).
-/

namespace Granny

/-- One synthesized audio frame, identified by an opaque number. -/
abbrev Frame := Nat

/-- How a backend connection terminates after its frames: normal
end-of-stream (`StopAsyncIteration`) or a raised exception. -/
inductive Term where
  | eos : Term
  | err : Term
deriving DecidableEq, Repr

/-- The output of one backend connection: the frames it emits, then how
it terminates. -/
structure StreamScript where
  frames : List Frame
  term : Term
deriving DecidableEq, Repr

/-- A speech-synthesis backend.  `openFails t` / `synthFails t`: whether
`stream(t)` / `synthesize(t)` raise at call time.  `script t chunks marked`:
the output a connection produces, as a function of the initial text, the
chunks pushed to it and whether the segment end was marked by the time the
first frame is requested. -/
structure Backend where
  openFails : String → Bool
  synthFails : String → Bool
  script : String → List String → Bool → StreamScript

/-- Which provider a connection belongs to. -/
inductive Side where
  | primary : Side
  | fallback : Side
deriving DecidableEq, Repr

/-- A backend connection: the object returned by `backend.stream(text)`.
`live` is the not-yet-emitted remainder of the script, determined at the
first pull from the input received by then; `done` records that the
terminator has been delivered, after which further pulls raise
`StopAsyncIteration` (the behavior of a finished Python async iterator).
`closed` records that `aclose` was awaited on it. -/
structure Conn where
  side : Side
  initText : String
  pushed : List String
  ended : Bool
  live : Option StreamScript
  done : Bool
  closed : Bool
deriving DecidableEq, Repr

/-- A fresh connection, as returned by `backend.stream(text)`. -/
def Conn.fresh (side : Side) (text : String) : Conn :=
  { side := side, initText := text, pushed := [], ended := false,
    live := none, done := false, closed := false }

/-- The `push_text` on a backend connection. -/
def Conn.push (c : Conn) (t : String) : Conn :=
  { c with pushed := c.pushed ++ [t] }

/-- The `mark_segment_end` on a backend connection. -/
def Conn.markEnd (c : Conn) : Conn :=
  { c with ended := true }

/-- The `aclose` on a backend connection. -/
def Conn.close (c : Conn) : Conn :=
  { c with closed := true }

/-- Result of one `__anext__` call: an audio frame, `StopAsyncIteration`
(normal exhaustion), or any other raised exception. -/
inductive PullRes where
  | frame : Frame → PullRes
  | stop : PullRes
  | err : PullRes
deriving DecidableEq, Repr

/-- The part of the script a connection has yet to emit: fixed once the
first pull happened, otherwise determined by the input received so far. -/
def Conn.pending (b : Backend) (c : Conn) : StreamScript :=
  c.live.getD (b.script c.initText c.pushed c.ended)

/-- One `__anext__` on a backend connection. -/
def Conn.pull (b : Backend) (c : Conn) : PullRes × Conn :=
  if c.done then (.stop, c)
  else
    let sc := c.pending b
    match sc.frames with
    | f :: rest => (.frame f, { c with live := some ⟨rest, sc.term⟩ })
    | [] =>
      ((match sc.term with | .eos => .stop | .err => .err),
       { c with live := some ⟨[], sc.term⟩, done := true })

/-- State of a `FallbackSynthesizeStream` (agent.py lines 202-323).
`current` indexes into the world's connection heap; `initDone` is the
source's `_initialized` flag. -/
structure FallbackStream where
  text : String
  textBuffer : List String
  segmentEnded : Bool
  usingFallback : Bool
  frameCount : Nat
  initDone : Bool
  exhausted : Bool
  current : Option Nat
deriving DecidableEq, Repr

/-- The stream constructed by `FallbackSynthesizeStream.__init__`. -/
def FallbackStream.fresh (text : String) : FallbackStream :=
  { text := text, textBuffer := [], segmentEnded := false,
    usingFallback := false, frameCount := 0, initDone := false,
    exhausted := false, current := none }

/-- State of a `LoggedSynthesizeStream` (agent.py lines 168-199):
the wrapped connection (by heap index), the provider tag and the frame
counter used only for logging. -/
structure LoggedStream where
  inner : Nat
  provider : String
  frameCount : Nat
deriving DecidableEq, Repr

/-- A stream object handed to the caller by `FallbackTTS.stream`. -/
inductive StreamObj where
  | fb : FallbackStream → StreamObj
  | logged : LoggedStream → StreamObj
deriving DecidableEq, Repr

/-- The world: the `FallbackTTS` instance's fields (`_active_provider`,
`_audio_frame_count`, `_force_failure`, the two backends), every backend
connection ever opened, the stream objects handed out, and ghost counters
of backend `stream`/`synthesize` invocations. -/
structure World where
  primary : Backend
  fallback : Backend
  forceFailure : Bool
  activeProvider : String
  audioFrameCount : Nat
  conns : List Conn
  streams : List StreamObj
  primaryStreamCalls : Nat
  primarySynthCalls : Nat
  fallbackStreamCalls : Nat
  fallbackSynthCalls : Nat

/-- The world right after `FallbackTTS.__init__` (lines 85-105). -/
def initWorld (p f : Backend) (force : Bool) : World :=
  { primary := p, fallback := f, forceFailure := force,
    activeProvider := "none", audioFrameCount := 0,
    conns := [], streams := [],
    primaryStreamCalls := 0, primarySynthCalls := 0,
    fallbackStreamCalls := 0, fallbackSynthCalls := 0 }

def World.backendOf (w : World) : Side → Backend
  | .primary => w.primary
  | .fallback => w.fallback

def World.setConn (w : World) (i : Nat) (c : Conn) : World :=
  { w with conns := w.conns.set i c }

/-- Open a new backend connection; returns its heap index. -/
def World.openConn (w : World) (side : Side) (text : String) : Nat × World :=
  (w.conns.length, { w with conns := w.conns ++ [Conn.fresh side text] })

def World.connPush (w : World) (i : Nat) (t : String) : World :=
  match w.conns[i]? with
  | some c => w.setConn i (c.push t)
  | none => w

def World.connMark (w : World) (i : Nat) : World :=
  match w.conns[i]? with
  | some c => w.setConn i c.markEnd
  | none => w

def World.connClose (w : World) (i : Nat) : World :=
  match w.conns[i]? with
  | some c => w.setConn i c.close
  | none => w

def World.connPull (w : World) (i : Nat) : PullRes × World :=
  match w.conns[i]? with
  | some c =>
    let rc := Conn.pull (w.backendOf c.side) c
    (rc.1, w.setConn i rc.2)
  | none => (.err, w)

/-- The `FallbackSynthesizeStream.push_text` (lines 229-233): buffer the chunk,
and forward it when a connection is already open. -/
def fbPush (w : World) (s : FallbackStream) (t : String) : World × FallbackStream :=
  let s := { s with textBuffer := s.textBuffer ++ [t] }
  match s.current with
  | some i => (w.connPush i t, s)
  | none => (w, s)

/-- The `FallbackSynthesizeStream.mark_segment_end` (lines 235-239). -/
def fbMark (w : World) (s : FallbackStream) : World × FallbackStream :=
  let s := { s with segmentEnded := true }
  match s.current with
  | some i => (w.connMark i, s)
  | none => (w, s)

/-- The buffer-replay loop shared by `_initialize_stream` and
`_switch_to_fallback`. -/
def replayBuffer (w : World) (i : Nat) (buf : List String) : World :=
  buf.foldl (fun w t => w.connPush i t) w

/-- The `_switch_to_fallback` (lines 264-282): open the fallback connection and
replay the buffer onto it.  Returns `true` when the fallback `stream()` call
itself raised, modelling the `RuntimeError` that propagates; on that path
the previous `_current_stream` is neither closed nor replaced (the
assignment never executes). -/
def switchToFallback (w : World) (s : FallbackStream) :
    World × FallbackStream × Bool :=
  let s := { s with usingFallback := true }
  let w := { w with fallbackStreamCalls := w.fallbackStreamCalls + 1 }
  if w.fallback.openFails s.text then (w, s, true)
  else
    let iw := w.openConn .fallback s.text
    let w := replayBuffer iw.2 iw.1 s.textBuffer
    let w := if s.segmentEnded then w.connMark iw.1 else w
    (w, { s with current := some iw.1 }, false)

/-- The `_initialize_stream` (lines 241-262): lazily open the primary
connection, replaying the buffer; on an open-time exception switch to the
fallback.  Returns `true` when an exception propagates (both providers
failed at open time). -/
def initStream (w : World) (s : FallbackStream) :
    World × FallbackStream × Bool :=
  if s.initDone then (w, s, false)
  else
    let s := { s with initDone := true }
    let w := { w with primaryStreamCalls := w.primaryStreamCalls + 1 }
    if w.primary.openFails s.text then switchToFallback w s
    else
      let iw := w.openConn .primary s.text
      let w := replayBuffer iw.2 iw.1 s.textBuffer
      let w := if s.segmentEnded then w.connMark iw.1 else w
      (w, { s with current := some iw.1 }, false)

/-- The `FallbackSynthesizeStream.__anext__` (lines 284-316).  The recursion
`return await self.__anext__()` after a provider switch is embedded with a
fuel parameter; the retry runs with `usingFallback = true`, so from the
public entry (fuel 2) the fuel is never exhausted.  A pull with no current
connection models `None.__anext__` raising inside the `try` block. -/
def fbAnext : Nat → World → FallbackStream → PullRes × World × FallbackStream
  | 0, w, s => (.err, w, s)
  | fuel + 1, w, s =>
    if s.exhausted then (.stop, w, s)
    else
      match initStream w s with
      | (w', s', true) => (.err, w', s')
      | (w', s', false) =>
        let rw : PullRes × World :=
          match s'.current with
          | none => (.err, w')
          | some i => w'.connPull i
        match rw with
        | (.frame f, w2) => (.frame f, w2, { s' with frameCount := s'.frameCount + 1 })
        | (.stop, w2) => (.stop, w2, { s' with exhausted := true })
        | (.err, w2) =>
          if s'.usingFallback then (.err, w2, s')
          else
            match switchToFallback w2 s' with
            | (w3, s3, true) => (.err, w3, s3)
            | (w3, s3, false) => fbAnext fuel w3 s3

/-- The public `__anext__` entry. -/
def FallbackStream.anext (w : World) (s : FallbackStream) :
    PullRes × World × FallbackStream :=
  fbAnext 2 w s

/-- The `FallbackSynthesizeStream.aclose` (lines 321-323): close the current
connection when one is present. -/
def fbClose (w : World) (s : FallbackStream) : World :=
  match s.current with
  | some i => w.connClose i
  | none => w

/-- The `LoggedSynthesizeStream.push_text` (lines 192-193). -/
def logPush (w : World) (l : LoggedStream) (t : String) : World :=
  w.connPush l.inner t

/-- The `LoggedSynthesizeStream.mark_segment_end` (lines 195-196). -/
def logMark (w : World) (l : LoggedStream) : World :=
  w.connMark l.inner

/-- The `LoggedSynthesizeStream.aclose` (lines 198-199). -/
def logClose (w : World) (l : LoggedStream) : World :=
  w.connClose l.inner

/-- The `LoggedSynthesizeStream.__anext__` (lines 176-187): forward the pull,
count the frame; `StopAsyncIteration` is re-raised and any other exception
propagates unchanged. -/
def logAnext (w : World) (l : LoggedStream) :
    PullRes × World × LoggedStream :=
  match w.connPull l.inner with
  | (.frame f, w') => (.frame f, w', { l with frameCount := l.frameCount + 1 })
  | (.stop, w') => (.stop, w', l)
  | (.err, w') => (.err, w', l)

/-- The `FallbackTTS.stream` (lines 127-147).  In force-failure mode the
fallback is opened eagerly and wrapped in a `LoggedSynthesizeStream` (an
open-time exception propagates and no stream object is produced);
otherwise a lazy `FallbackSynthesizeStream` is handed out and
`_active_provider` is set to `"primary"`. -/
def ttsStream (w : World) (text : String) : World :=
  if w.forceFailure then
    let w := { w with activeProvider := "fallback",
                      fallbackStreamCalls := w.fallbackStreamCalls + 1 }
    if w.fallback.openFails text then w
    else
      let iw := w.openConn .fallback text
      { iw.2 with streams := iw.2.streams ++ [.logged ⟨iw.1, "fallback", 0⟩] }
  else
    { w with activeProvider := "primary",
             streams := w.streams ++ [.fb (FallbackStream.fresh text)] }

/-- The `FallbackTTS.synthesize` via `_synthesize_with_fallback` (lines
107-125), modelled for its provider bookkeeping and backend call counts
(the returned `ChunkedStream` is the backend's own object). -/
def ttsSynthesize (w : World) (text : String) : World :=
  if w.forceFailure then
    { w with activeProvider := "fallback",
             fallbackSynthCalls := w.fallbackSynthCalls + 1 }
  else
    let w := { w with activeProvider := "primary",
                      primarySynthCalls := w.primarySynthCalls + 1 }
    if w.primary.synthFails text then
      { w with activeProvider := "fallback",
               fallbackSynthCalls := w.fallbackSynthCalls + 1 }
    else w

/-- Caller-visible operations on one `FallbackTTS` instance and the stream
objects it returned (addressed by creation index). -/
inductive TOp where
  | synth : String → TOp
  | stream : String → TOp
  | push : Nat → String → TOp
  | mark : Nat → TOp
  | pull : Nat → TOp
  | close : Nat → TOp

def World.setStream (w : World) (i : Nat) (o : StreamObj) : World :=
  { w with streams := w.streams.set i o }

/-- One caller operation; pulls additionally produce a `PullRes`. -/
def ttsStep (w : World) : TOp → World × Option PullRes
  | .synth t => (ttsSynthesize w t, none)
  | .stream t => (ttsStream w t, none)
  | .push i t =>
    match w.streams[i]? with
    | some (.fb s) =>
      let ws := fbPush w s t
      ((ws.1.setStream i (.fb ws.2)), none)
    | some (.logged l) => (logPush w l t, none)
    | none => (w, none)
  | .mark i =>
    match w.streams[i]? with
    | some (.fb s) =>
      let ws := fbMark w s
      ((ws.1.setStream i (.fb ws.2)), none)
    | some (.logged l) => (logMark w l, none)
    | none => (w, none)
  | .pull i =>
    match w.streams[i]? with
    | some (.fb s) =>
      let rws := FallbackStream.anext w s
      ((rws.2.1.setStream i (.fb rws.2.2)), some rws.1)
    | some (.logged l) =>
      let rwl := logAnext w l
      ((rwl.2.1.setStream i (.logged rwl.2.2)), some rwl.1)
    | none => (w, none)
  | .close i =>
    match w.streams[i]? with
    | some (.fb s) => (fbClose w s, none)
    | some (.logged l) => (logClose w l, none)
    | none => (w, none)

/-- Run a sequence of caller operations. -/
def ttsRun (w : World) : List TOp → World
  | [] => w
  | op :: ops => ttsRun (ttsStep w op).1 ops

/-- Outcome of pulling a stream to completion. -/
inductive DrainOut where
  | stopped : DrainOut
  | errored : DrainOut
  | outOfFuel : DrainOut
deriving DecidableEq, Repr

/-- Pull a `FallbackSynthesizeStream` repeatedly (as `async for` does),
collecting frames until `StopAsyncIteration` or an exception. -/
def drain : Nat → World → FallbackStream →
    List Frame × DrainOut × World × FallbackStream
  | 0, w, s => ([], .outOfFuel, w, s)
  | fuel + 1, w, s =>
    match FallbackStream.anext w s with
    | (.frame f, w', s') =>
      let r := drain fuel w' s'
      (f :: r.1, r.2)
    | (.stop, w', s') => ([], .stopped, w', s')
    | (.err, w', s') => ([], .errored, w', s')

/-- Pull a bare backend connection repeatedly. -/
def connDrain : Nat → Backend → Conn → List Frame × DrainOut × Conn
  | 0, _, c => ([], .outOfFuel, c)
  | fuel + 1, b, c =>
    match Conn.pull b c with
    | (.frame f, c') =>
      let r := connDrain fuel b c'
      (f :: r.1, r.2)
    | (.stop, c') => ([], .stopped, c')
    | (.err, c') => ([], .errored, c')

/-- A backend used standalone: open a connection, push the chunks in order,
mark the segment end, then pull to completion. -/
def standalone (b : Backend) (text : String) (chunks : List String)
    (fuel : Nat) : List Frame × DrainOut × Conn :=
  connDrain fuel b (((chunks.foldl Conn.push (Conn.fresh .primary text))).markEnd)

/-- The caller scenario behind the spec's testable properties: obtain a
stream from `FallbackTTS.stream`, push the chunks in order, mark the
segment end.  `FallbackStream.fresh text` is exactly the stream object
`ttsStream` appended to the world (the `streams` entry itself is not read
by the stream-level operations). -/
def setup (p f : Backend) (text : String) (chunks : List String) :
    World × FallbackStream :=
  let w := ttsStream (initWorld p f false) text
  let s := FallbackStream.fresh text
  let ws := chunks.foldl (fun (ws : World × FallbackStream) t => fbPush ws.1 ws.2 t) (w, s)
  fbMark ws.1 ws.2

/-- The full scenario: `setup`, then pull to completion. -/
def scenario (p f : Backend) (text : String) (chunks : List String)
    (fuel : Nat) : List Frame × DrainOut × World × FallbackStream :=
  let ws := setup p f text chunks
  drain fuel ws.1 ws.2

/-! ### Helper notions used only by the proofs -/

/-- A connection whose script has been fully delivered (terminator included). -/
def Conn.spent (c : Conn) (t : Term) : Conn :=
  { c with live := some ⟨[], t⟩, done := true }

/-- The connection obtained by opening a backend stream and replaying onto it
a buffer `buf` and (when `marked`) the segment-end marker. -/
def Conn.replayed (side : Side) (text : String) (buf : List String)
    (marked : Bool) : Conn :=
  { side := side, initText := text, pushed := buf, ended := marked,
    live := none, done := false, closed := false }

/-- Drain outcome dictated by a terminator. -/
def termOut : Term → DrainOut
  | .eos => .stopped
  | .err => .errored

/-! ### Basic evaluation lemmas -/

theorem foldl_push (ts : List String) (c : Conn) :
    ts.foldl Conn.push c = { c with pushed := c.pushed ++ ts } := by
  induction ts generalizing c with
  | nil => simp
  | cons t ts ih => simp [Conn.push, ih]

theorem getElem_lt {l : List Conn} {i : Nat} {c : Conn}
    (h : l[i]? = some c) : i < l.length := by
  rcases List.getElem?_eq_some.mp h with ⟨hlt, _⟩
  exact hlt

@[simp] theorem setConn_provider (w : World) (i : Nat) (c : Conn) :
    (w.setConn i c).activeProvider = w.activeProvider := rfl

@[simp] theorem setConn_primary (w : World) (i : Nat) (c : Conn) :
    (w.setConn i c).primary = w.primary := rfl

@[simp] theorem setConn_fallback (w : World) (i : Nat) (c : Conn) :
    (w.setConn i c).fallback = w.fallback := rfl

@[simp] theorem setConn_backendOf (w : World) (i : Nat) (c : Conn) (sd : Side) :
    (w.setConn i c).backendOf sd = w.backendOf sd := by
  cases sd <;> rfl

@[simp] theorem setConn_conns (w : World) (i : Nat) (c : Conn) :
    (w.setConn i c).conns = w.conns.set i c := rfl

theorem setConn_setConn (w : World) (i : Nat) (c c' : Conn) :
    (w.setConn i c).setConn i c' = w.setConn i c' := by
  simp [World.setConn, List.set_set]

theorem setConn_getElem (w : World) (i : Nat) (c c' : Conn)
    (h : w.conns[i]? = some c') :
    (w.setConn i c).conns[i]? = some c := by
  simp [World.setConn, List.getElem?_set_self (getElem_lt h)]

theorem connPush_eval (w : World) (i : Nat) (c : Conn) (t : String)
    (h : w.conns[i]? = some c) :
    w.connPush i t = w.setConn i (c.push t) := by
  simp [World.connPush, h]

theorem connMark_eval (w : World) (i : Nat) (c : Conn)
    (h : w.conns[i]? = some c) :
    w.connMark i = w.setConn i c.markEnd := by
  simp [World.connMark, h]

theorem connClose_eval (w : World) (i : Nat) (c : Conn)
    (h : w.conns[i]? = some c) :
    w.connClose i = w.setConn i c.close := by
  simp [World.connClose, h]

theorem connPull_eval (w : World) (i : Nat) (c : Conn)
    (h : w.conns[i]? = some c) :
    w.connPull i =
      ((Conn.pull (w.backendOf c.side) c).1,
       w.setConn i (Conn.pull (w.backendOf c.side) c).2) := by
  simp [World.connPull, h]

theorem set_concat {α : Type} (l : List α) (a b : α) :
    (l ++ [a]).set l.length b = l ++ [b] := by
  induction l with
  | nil => rfl
  | cons x xs ih => simp [ih]

theorem getElem_concat {α : Type} (l : List α) (a : α) :
    (l ++ [a])[l.length]? = some a := by
  induction l with
  | nil => rfl
  | cons x xs ih => simpa using ih

/-- Replaying a buffer onto the freshly appended connection. -/
theorem replayBuffer_concat (buf : List String) (w : World) (c : Conn) :
    replayBuffer { w with conns := w.conns ++ [c] } w.conns.length buf
      = { w with conns := w.conns ++ [buf.foldl Conn.push c] } := by
  induction buf generalizing c with
  | nil => rfl
  | cons t ts ih =>
    show replayBuffer (World.connPush { w with conns := w.conns ++ [c] }
        w.conns.length t) w.conns.length ts = _
    rw [connPush_eval _ _ c t (by simpa using getElem_concat w.conns c)]
    show replayBuffer { w with conns := (w.conns ++ [c]).set w.conns.length (c.push t) } _ _ = _
    rw [set_concat]
    exact ih (c.push t)

theorem Conn.pull_frame (b : Backend) (c : Conn) (f : Frame)
    (rest : List Frame) (term : Term) (hd : c.done = false)
    (hp : c.pending b = ⟨f :: rest, term⟩) :
    Conn.pull b c = (.frame f, { c with live := some ⟨rest, term⟩ }) := by
  simp [Conn.pull, hd, hp]

theorem Conn.pull_term (b : Backend) (c : Conn) (term : Term)
    (hd : c.done = false) (hp : c.pending b = ⟨[], term⟩) :
    Conn.pull b c =
      ((match term with | .eos => .stop | .err => .err), c.spent term) := by
  cases term <;> simp [Conn.pull, hd, hp, Conn.spent]

theorem Conn.pull_done (b : Backend) (c : Conn) (hd : c.done = true) :
    Conn.pull b c = (.stop, c) := by
  simp [Conn.pull, hd]

/-- The `_switch_to_fallback` when the fallback `stream()` call succeeds. -/
theorem switch_eval (w : World) (s : FallbackStream)
    (hf : w.fallback.openFails s.text = false) :
    switchToFallback w s =
      ({ w with fallbackStreamCalls := w.fallbackStreamCalls + 1,
                conns := w.conns ++
                  [Conn.replayed .fallback s.text s.textBuffer s.segmentEnded] },
       { s with usingFallback := true, current := some w.conns.length }, false) := by
  unfold switchToFallback
  simp only [hf, if_false, World.openConn]
  have hW : ({ w with
        fallbackStreamCalls := w.fallbackStreamCalls + 1,
        conns := w.conns ++ [Conn.fresh .fallback s.text] } : World)
      = { { w with fallbackStreamCalls := w.fallbackStreamCalls + 1 } with
          conns := { w with fallbackStreamCalls := w.fallbackStreamCalls + 1 }.conns
            ++ [Conn.fresh .fallback s.text] } := rfl
  rw [hW, replayBuffer_concat]
  rw [foldl_push]
  cases hse : s.segmentEnded with
  | false =>
    simp only [if_false, Bool.false_eq_true]
    simp [Conn.fresh, Conn.replayed, hse]
  | true =>
    simp only [if_true]
    rw [connMark_eval _ _ ({ Conn.fresh .fallback s.text with
          pushed := (Conn.fresh .fallback s.text).pushed ++ s.textBuffer })
        (by simpa using getElem_concat _ _)]
    simp [World.setConn, set_concat, Conn.fresh, Conn.replayed, Conn.markEnd, hse]

/-- The `_switch_to_fallback` when the fallback `stream()` call raises. -/
theorem switch_eval_fail (w : World) (s : FallbackStream)
    (hf : w.fallback.openFails s.text = true) :
    switchToFallback w s =
      ({ w with fallbackStreamCalls := w.fallbackStreamCalls + 1 },
       { s with usingFallback := true }, true) := by
  unfold switchToFallback
  simp [hf]

/-- The `_initialize_stream` on an already-initialized stream. -/
theorem init_skip (w : World) (s : FallbackStream) (hin : s.initDone = true) :
    initStream w s = (w, s, false) := by
  simp [initStream, hin]

/-- The `_initialize_stream` when the primary `stream()` call succeeds. -/
theorem init_eval (w : World) (s : FallbackStream)
    (h0 : s.initDone = false) (hp : w.primary.openFails s.text = false) :
    initStream w s =
      ({ w with primaryStreamCalls := w.primaryStreamCalls + 1,
                conns := w.conns ++
                  [Conn.replayed .primary s.text s.textBuffer s.segmentEnded] },
       { s with initDone := true, current := some w.conns.length }, false) := by
  unfold initStream
  simp only [h0, Bool.false_eq_true, if_false, hp, World.openConn]
  have hW : ({ w with
        primaryStreamCalls := w.primaryStreamCalls + 1,
        conns := w.conns ++ [Conn.fresh .primary s.text] } : World)
      = { { w with primaryStreamCalls := w.primaryStreamCalls + 1 } with
          conns := { w with primaryStreamCalls := w.primaryStreamCalls + 1 }.conns
            ++ [Conn.fresh .primary s.text] } := rfl
  rw [hW, replayBuffer_concat]
  rw [foldl_push]
  cases hse : s.segmentEnded with
  | false =>
    simp only [if_false, Bool.false_eq_true]
    simp [Conn.fresh, Conn.replayed, hse]
  | true =>
    simp only [if_true]
    rw [connMark_eval _ _ ({ Conn.fresh .primary s.text with
          pushed := (Conn.fresh .primary s.text).pushed ++ s.textBuffer })
        (by simpa using getElem_concat _ _)]
    simp [World.setConn, set_concat, Conn.fresh, Conn.replayed, Conn.markEnd, hse]

/-- The `_initialize_stream` when the primary `stream()` call raises:
it becomes `_switch_to_fallback`. -/
theorem init_eval_fail (w : World) (s : FallbackStream)
    (h0 : s.initDone = false) (hp : w.primary.openFails s.text = true) :
    initStream w s =
      switchToFallback { w with primaryStreamCalls := w.primaryStreamCalls + 1 }
        { s with initDone := true } := by
  unfold initStream
  simp [h0, hp]

/-- Evaluating `setup`: the world produced by `FallbackTTS.stream` plus the
stream with the chunks buffered and the segment marked. -/
theorem setup_eval (p f : Backend) (text : String) (chunks : List String) :
    setup p f text chunks =
      ({ initWorld p f false with
           activeProvider := "primary",
           streams := [.fb (FallbackStream.fresh text)] },
       { FallbackStream.fresh text with
           textBuffer := chunks,
           segmentEnded := true }) := by
  have hpush : ∀ (cs : List String) (w : World) (s : FallbackStream),
      s.current = none →
      cs.foldl (fun (ws : World × FallbackStream) t => fbPush ws.1 ws.2 t) (w, s)
        = (w, { s with textBuffer := s.textBuffer ++ cs }) := by
    intro cs
    induction cs with
    | nil => intro w s h; simp
    | cons t ts ih =>
      intro w s h
      show ts.foldl _ (fbPush w s t) = _
      rw [show fbPush w s t = (w, { s with textBuffer := s.textBuffer ++ [t] }) by
        simp [fbPush, h]]
      rw [ih w _ (by simpa using h)]
      simp
  have hW : ttsStream (initWorld p f false) text
      = { initWorld p f false with
            activeProvider := "primary",
            streams := [.fb (FallbackStream.fresh text)] } := by
    simp [ttsStream, initWorld]
  simp only [setup]
  rw [hW, hpush chunks _ (FallbackStream.fresh text) rfl]
  simp [fbMark, FallbackStream.fresh]

/-! ### Preservation of `FallbackTTS`-level fields by stream operations -/

@[simp] theorem setConn_audio (w : World) (i : Nat) (c : Conn) :
    (w.setConn i c).audioFrameCount = w.audioFrameCount := rfl

@[simp] theorem connPush_provider (w : World) (i : Nat) (t : String) :
    (w.connPush i t).activeProvider = w.activeProvider := by
  unfold World.connPush
  rcases w.conns[i]? with _ | c <;> rfl

@[simp] theorem connPush_audio (w : World) (i : Nat) (t : String) :
    (w.connPush i t).audioFrameCount = w.audioFrameCount := by
  unfold World.connPush
  rcases w.conns[i]? with _ | c <;> rfl

@[simp] theorem connMark_provider (w : World) (i : Nat) :
    (w.connMark i).activeProvider = w.activeProvider := by
  unfold World.connMark
  rcases w.conns[i]? with _ | c <;> rfl

@[simp] theorem connMark_audio (w : World) (i : Nat) :
    (w.connMark i).audioFrameCount = w.audioFrameCount := by
  unfold World.connMark
  rcases w.conns[i]? with _ | c <;> rfl

@[simp] theorem connClose_provider (w : World) (i : Nat) :
    (w.connClose i).activeProvider = w.activeProvider := by
  unfold World.connClose
  rcases w.conns[i]? with _ | c <;> rfl

@[simp] theorem connClose_audio (w : World) (i : Nat) :
    (w.connClose i).audioFrameCount = w.audioFrameCount := by
  unfold World.connClose
  rcases w.conns[i]? with _ | c <;> rfl

@[simp] theorem connPull_provider (w : World) (i : Nat) :
    (w.connPull i).2.activeProvider = w.activeProvider := by
  unfold World.connPull
  rcases w.conns[i]? with _ | c <;> rfl

@[simp] theorem connPull_audio (w : World) (i : Nat) :
    (w.connPull i).2.audioFrameCount = w.audioFrameCount := by
  unfold World.connPull
  rcases w.conns[i]? with _ | c <;> rfl

@[simp] theorem replayBuffer_provider (buf : List String) (w : World) (i : Nat) :
    (replayBuffer w i buf).activeProvider = w.activeProvider := by
  induction buf generalizing w with
  | nil => rfl
  | cons t ts ih => simpa [replayBuffer] using ih (w.connPush i t)

@[simp] theorem replayBuffer_audio (buf : List String) (w : World) (i : Nat) :
    (replayBuffer w i buf).audioFrameCount = w.audioFrameCount := by
  induction buf generalizing w with
  | nil => rfl
  | cons t ts ih => simpa [replayBuffer] using ih (w.connPush i t)

theorem switch_provider (w : World) (s : FallbackStream) :
    (switchToFallback w s).1.activeProvider = w.activeProvider := by
  unfold switchToFallback
  rcases hf : w.fallback.openFails s.text
  · simp only [hf, Bool.false_eq_true, if_false, World.openConn]
    split <;> simp
  · simp [hf]

theorem switch_audio (w : World) (s : FallbackStream) :
    (switchToFallback w s).1.audioFrameCount = w.audioFrameCount := by
  unfold switchToFallback
  rcases hf : w.fallback.openFails s.text
  · simp only [hf, Bool.false_eq_true, if_false, World.openConn]
    split <;> simp
  · simp [hf]

theorem init_provider (w : World) (s : FallbackStream) :
    (initStream w s).1.activeProvider = w.activeProvider := by
  unfold initStream
  rcases h0 : s.initDone
  · rcases hp : w.primary.openFails s.text
    · simp only [h0, hp, Bool.false_eq_true, if_false, World.openConn]
      split <;> simp
    · simp [h0, hp, switch_provider]
  · simp [h0]

theorem init_audio (w : World) (s : FallbackStream) :
    (initStream w s).1.audioFrameCount = w.audioFrameCount := by
  unfold initStream
  rcases h0 : s.initDone
  · rcases hp : w.primary.openFails s.text
    · simp only [h0, hp, Bool.false_eq_true, if_false, World.openConn]
      split <;> simp
    · simp [h0, hp, switch_audio]
  · simp [h0]

theorem fbAnext_provider (fuel : Nat) (w : World) (s : FallbackStream) :
    (fbAnext fuel w s).2.1.activeProvider = w.activeProvider := by
  induction fuel generalizing w s with
  | zero => rfl
  | succ fuel ih =>
    show (fbAnext (fuel + 1) w s).2.1.activeProvider = w.activeProvider
    rw [fbAnext]
    rcases hex : s.exhausted
    · simp only [hex, Bool.false_eq_true, if_false]
      rcases hi : initStream w s with ⟨w', s', b⟩
      have hw' : w'.activeProvider = w.activeProvider := by
        have := init_provider w s
        rw [hi] at this
        exact this
      rcases b
      · simp only []
        rcases hcur : s'.current with _ | i
        · simp only []
          rcases hub : s'.usingFallback
          · simp only [hub, Bool.false_eq_true, if_false]
            rcases hsw : switchToFallback w' s' with ⟨w3, s3, b3⟩
            have hw3 : w3.activeProvider = w'.activeProvider := by
              have := switch_provider w' s'
              rw [hsw] at this
              exact this
            rcases b3
            · simpa [ih w3 s3, hw3] using hw'
            · simpa [hw3] using hw'
          · simpa [hub] using hw'
        · simp only []
          rcases hp : w'.connPull i with ⟨r, w2⟩
          have hw2 : w2.activeProvider = w'.activeProvider := by
            have := connPull_provider w' i
            rw [hp] at this
            exact this
          rcases r with f | _ | _
          · simpa [hw2] using hw'
          · simpa [hw2] using hw'
          · simp only []
            rcases hub : s'.usingFallback
            · simp only [hub, Bool.false_eq_true, if_false]
              rcases hsw : switchToFallback w2 s' with ⟨w3, s3, b3⟩
              have hw3 : w3.activeProvider = w2.activeProvider := by
                have := switch_provider w2 s'
                rw [hsw] at this
                exact this
              rcases b3
              · simp only [ih w3 s3]
                rw [hw3, hw2, hw']
              · simpa [hw3, hw2] using hw'
            · simpa [hub, hw2] using hw'
      · simpa using hw'
    · simp [hex]

theorem fbAnext_audio (fuel : Nat) (w : World) (s : FallbackStream) :
    (fbAnext fuel w s).2.1.audioFrameCount = w.audioFrameCount := by
  induction fuel generalizing w s with
  | zero => rfl
  | succ fuel ih =>
    show (fbAnext (fuel + 1) w s).2.1.audioFrameCount = w.audioFrameCount
    rw [fbAnext]
    rcases hex : s.exhausted
    · simp only [hex, Bool.false_eq_true, if_false]
      rcases hi : initStream w s with ⟨w', s', b⟩
      have hw' : w'.audioFrameCount = w.audioFrameCount := by
        have := init_audio w s
        rw [hi] at this
        exact this
      rcases b
      · simp only []
        rcases hcur : s'.current with _ | i
        · simp only []
          rcases hub : s'.usingFallback
          · simp only [hub, Bool.false_eq_true, if_false]
            rcases hsw : switchToFallback w' s' with ⟨w3, s3, b3⟩
            have hw3 : w3.audioFrameCount = w'.audioFrameCount := by
              have := switch_audio w' s'
              rw [hsw] at this
              exact this
            rcases b3
            · simpa [ih w3 s3, hw3] using hw'
            · simpa [hw3] using hw'
          · simpa [hub] using hw'
        · simp only []
          rcases hp : w'.connPull i with ⟨r, w2⟩
          have hw2 : w2.audioFrameCount = w'.audioFrameCount := by
            have := connPull_audio w' i
            rw [hp] at this
            exact this
          rcases r with f | _ | _
          · simpa [hw2] using hw'
          · simpa [hw2] using hw'
          · simp only []
            rcases hub : s'.usingFallback
            · simp only [hub, Bool.false_eq_true, if_false]
              rcases hsw : switchToFallback w2 s' with ⟨w3, s3, b3⟩
              have hw3 : w3.audioFrameCount = w2.audioFrameCount := by
                have := switch_audio w2 s'
                rw [hsw] at this
                exact this
              rcases b3
              · simp only [ih w3 s3]
                rw [hw3, hw2, hw']
              · simpa [hw3, hw2] using hw'
            · simpa [hub, hw2] using hw'
      · simpa using hw'
    · simp [hex]

theorem drain_provider (fuel : Nat) (w : World) (s : FallbackStream) :
    (drain fuel w s).2.2.1.activeProvider = w.activeProvider := by
  induction fuel generalizing w s with
  | zero => rfl
  | succ fuel ih =>
    rw [drain]
    rcases h : FallbackStream.anext w s with ⟨r, w', s'⟩
    have hw' : w'.activeProvider = w.activeProvider := by
      have := fbAnext_provider 2 w s
      rw [show fbAnext 2 w s = (r, w', s') from h] at this
      exact this
    rcases r with f | _ | _
    · simpa [ih w' s'] using hw'
    · simpa using hw'
    · simpa using hw'

/-! ### Single-pull behavior of `__anext__` -/

theorem anext_exhausted (fuel : Nat) (w : World) (s : FallbackStream)
    (h : s.exhausted = true) :
    fbAnext (fuel + 1) w s = (.stop, w, s) := by
  rw [fbAnext]
  simp [h]

theorem anext_frame (fuel : Nat) (w : World) (s : FallbackStream) (i : Nat)
    (c : Conn) (f : Frame) (rest : List Frame) (term : Term)
    (hex : s.exhausted = false) (hin : s.initDone = true)
    (hcur : s.current = some i) (hc : w.conns[i]? = some c)
    (hd : c.done = false)
    (hp : c.pending (w.backendOf c.side) = ⟨f :: rest, term⟩) :
    fbAnext (fuel + 1) w s =
      (.frame f, w.setConn i { c with live := some ⟨rest, term⟩ },
       { s with frameCount := s.frameCount + 1 }) := by
  rw [fbAnext]
  simp only [hex, Bool.false_eq_true, if_false]
  rw [init_skip w s hin]
  dsimp only
  rw [hcur]
  dsimp only
  rw [connPull_eval w i c hc, Conn.pull_frame (w.backendOf c.side) c f rest term hd hp]
  simp [hex, hcur]

theorem anext_eos (fuel : Nat) (w : World) (s : FallbackStream) (i : Nat)
    (c : Conn)
    (hex : s.exhausted = false) (hin : s.initDone = true)
    (hcur : s.current = some i) (hc : w.conns[i]? = some c)
    (hd : c.done = false)
    (hp : c.pending (w.backendOf c.side) = ⟨[], .eos⟩) :
    fbAnext (fuel + 1) w s =
      (.stop, w.setConn i (c.spent .eos), { s with exhausted := true }) := by
  rw [fbAnext]
  simp only [hex, Bool.false_eq_true, if_false]
  rw [init_skip w s hin]
  dsimp only
  rw [hcur]
  dsimp only
  rw [connPull_eval w i c hc, Conn.pull_term (w.backendOf c.side) c .eos hd hp]

theorem anext_err_ub (fuel : Nat) (w : World) (s : FallbackStream) (i : Nat)
    (c : Conn)
    (hex : s.exhausted = false) (hin : s.initDone = true)
    (hcur : s.current = some i) (hc : w.conns[i]? = some c)
    (hd : c.done = false)
    (hp : c.pending (w.backendOf c.side) = ⟨[], .err⟩)
    (hub : s.usingFallback = true) :
    fbAnext (fuel + 1) w s = (.err, w.setConn i (c.spent .err), s) := by
  rw [fbAnext]
  simp only [hex, Bool.false_eq_true, if_false]
  rw [init_skip w s hin]
  dsimp only
  rw [hcur]
  dsimp only
  rw [connPull_eval w i c hc, Conn.pull_term (w.backendOf c.side) c .err hd hp]
  simp [hex, hcur, hub]

theorem anext_done (fuel : Nat) (w : World) (s : FallbackStream) (i : Nat)
    (c : Conn)
    (hex : s.exhausted = false) (hin : s.initDone = true)
    (hcur : s.current = some i) (hc : w.conns[i]? = some c)
    (hd : c.done = true) :
    fbAnext (fuel + 1) w s =
      (.stop, w.setConn i c, { s with exhausted := true }) := by
  rw [fbAnext]
  simp only [hex, Bool.false_eq_true, if_false]
  rw [init_skip w s hin]
  dsimp only
  rw [hcur]
  dsimp only
  rw [connPull_eval w i c hc, Conn.pull_done (w.backendOf c.side) c hd]

theorem anext_err_switch (fuel : Nat) (w : World) (s : FallbackStream)
    (i : Nat) (c : Conn)
    (hex : s.exhausted = false) (hin : s.initDone = true)
    (hcur : s.current = some i) (hc : w.conns[i]? = some c)
    (hd : c.done = false)
    (hp : c.pending (w.backendOf c.side) = ⟨[], .err⟩)
    (hub : s.usingFallback = false)
    (hf : w.fallback.openFails s.text = false) :
    fbAnext (fuel + 2) w s =
      fbAnext (fuel + 1)
        { w with
            conns := w.conns.set i (c.spent .err) ++
              [Conn.replayed .fallback s.text s.textBuffer s.segmentEnded],
            fallbackStreamCalls := w.fallbackStreamCalls + 1 }
        { s with usingFallback := true, current := some w.conns.length } := by
  rw [show fuel + 2 = (fuel + 1) + 1 from rfl, fbAnext]
  simp only [hex, Bool.false_eq_true, if_false]
  rw [init_skip w s hin]
  dsimp only
  rw [hcur]
  dsimp only
  rw [connPull_eval w i c hc, Conn.pull_term (w.backendOf c.side) c .err hd hp]
  dsimp only
  simp only [hub, Bool.false_eq_true, if_false]
  rw [switch_eval (w.setConn i (c.spent .err)) s (by simpa using hf)]
  dsimp only
  simp [World.setConn, hex]

theorem anext_err_switchfail (fuel : Nat) (w : World) (s : FallbackStream)
    (i : Nat) (c : Conn)
    (hex : s.exhausted = false) (hin : s.initDone = true)
    (hcur : s.current = some i) (hc : w.conns[i]? = some c)
    (hd : c.done = false)
    (hp : c.pending (w.backendOf c.side) = ⟨[], .err⟩)
    (hub : s.usingFallback = false)
    (hf : w.fallback.openFails s.text = true) :
    fbAnext (fuel + 1) w s =
      (.err,
       { w with conns := w.conns.set i (c.spent .err),
                fallbackStreamCalls := w.fallbackStreamCalls + 1 },
       { s with usingFallback := true }) := by
  rw [fbAnext]
  simp only [hex, Bool.false_eq_true, if_false]
  rw [init_skip w s hin]
  dsimp only
  rw [hcur]
  dsimp only
  rw [connPull_eval w i c hc, Conn.pull_term (w.backendOf c.side) c .err hd hp]
  dsimp only
  simp only [hub, Bool.false_eq_true, if_false]
  rw [switch_eval_fail (w.setConn i (c.spent .err)) s (by simpa using hf)]
  simp [World.setConn, hex, hcur]

/-! ### Draining a stream in its steady state -/

theorem drain_steady (term : Term) (rest : List Frame) :
    ∀ (fuel : Nat) (w : World) (s : FallbackStream) (i : Nat) (c : Conn),
    s.exhausted = false → s.initDone = true → s.current = some i →
    w.conns[i]? = some c → c.done = false →
    c.pending (w.backendOf c.side) = ⟨rest, term⟩ →
    (term = .err → s.usingFallback = true) →
    rest.length < fuel →
    drain fuel w s =
      (rest, termOut term, w.setConn i (c.spent term),
       match term with
       | .eos => { s with
                   frameCount := s.frameCount + rest.length,
                   exhausted := true }
       | .err => { s with frameCount := s.frameCount + rest.length }) := by
  induction rest with
  | nil =>
    intro fuel w s i c hex hin hcur hc hd hp hub hfuel
    cases fuel with
    | zero => omega
    | succ fu =>
      rw [drain]
      cases term with
      | eos =>
        rw [show FallbackStream.anext w s = _ from
          anext_eos 1 w s i c hex hin hcur hc hd hp]
        simp [termOut]
      | err =>
        rw [show FallbackStream.anext w s = _ from
          anext_err_ub 1 w s i c hex hin hcur hc hd hp (hub rfl)]
        simp [termOut]
  | cons f rest ih =>
    intro fuel w s i c hex hin hcur hc hd hp hub hfuel
    cases fuel with
    | zero => omega
    | succ fu =>
      rw [drain]
      rw [show FallbackStream.anext w s = _ from
        anext_frame 1 w s i c f rest term hex hin hcur hc hd hp]
      dsimp only
      rw [ih fu (w.setConn i { c with live := some ⟨rest, term⟩ })
        { s with frameCount := s.frameCount + 1 } i
        { c with live := some ⟨rest, term⟩ }
        (by simpa using hex) (by simpa using hin) (by simpa using hcur)
        (setConn_getElem w i _ c hc) (by simpa using hd)
        (by simp [Conn.pending]) (by simpa using hub)
        (by simp at hfuel; omega)]
      rw [setConn_setConn]
      have harith : s.frameCount + 1 + rest.length
          = s.frameCount + (rest.length + 1) := by omega
      cases term with
      | eos => simp [Conn.spent, harith]
      | err => simp [Conn.spent, harith]

theorem connDrain_steady (term : Term) (rest : List Frame) :
    ∀ (fuel : Nat) (b : Backend) (c : Conn),
    c.done = false → c.pending b = ⟨rest, term⟩ → rest.length < fuel →
    connDrain fuel b c = (rest, termOut term, c.spent term) := by
  induction rest with
  | nil =>
    intro fuel b c hd hp hfuel
    cases fuel with
    | zero => omega
    | succ fu =>
      rw [connDrain, Conn.pull_term b c term hd hp]
      cases term <;> simp [termOut]
  | cons f rest ih =>
    intro fuel b c hd hp hfuel
    cases fuel with
    | zero => omega
    | succ fu =>
      rw [connDrain, Conn.pull_frame b c f rest term hd hp]
      dsimp only
      rw [ih fu b { c with live := some ⟨rest, term⟩ } (by simpa using hd)
        (by simp [Conn.pending]) (by simp at hfuel; omega)]
      simp [Conn.spent]

theorem standalone_eval (b : Backend) (text : String) (chunks : List String)
    (fuel : Nat)
    (hfuel : (b.script text chunks true).frames.length < fuel) :
    standalone b text chunks fuel =
      ((b.script text chunks true).frames,
       termOut (b.script text chunks true).term,
       (Conn.replayed .primary text chunks true).spent
         (b.script text chunks true).term) := by
  unfold standalone
  have hconn : ((chunks.foldl Conn.push (Conn.fresh .primary text))).markEnd
      = Conn.replayed .primary text chunks true := by
    rw [foldl_push]
    simp [Conn.fresh, Conn.markEnd, Conn.replayed]
  rw [hconn]
  exact connDrain_steady _ _ fuel b _ rfl (by simp [Conn.pending, Conn.replayed])
    hfuel

theorem drain_exhausted (fuel : Nat) (w : World) (s : FallbackStream)
    (h : s.exhausted = true) :
    (drain fuel w s).1 = [] ∧ (drain fuel w s).2.2.1 = w ∧
    (drain fuel w s).2.2.2 = s := by
  cases fuel with
  | zero => exact ⟨rfl, rfl, rfl⟩
  | succ fu =>
    rw [drain, show FallbackStream.anext w s = _ from anext_exhausted 1 w s h]
    exact ⟨rfl, rfl, rfl⟩

theorem drain_doneConn (fuel : Nat) (w : World) (s : FallbackStream)
    (i : Nat) (c : Conn)
    (hex : s.exhausted = false) (hin : s.initDone = true)
    (hcur : s.current = some i) (hc : w.conns[i]? = some c)
    (hd : c.done = true) :
    (drain fuel w s).1 = [] ∧
    (drain fuel w s).2.2.1.fallbackStreamCalls = w.fallbackStreamCalls := by
  cases fuel with
  | zero => exact ⟨rfl, rfl⟩
  | succ fu =>
    rw [drain, show FallbackStream.anext w s = _ from
      anext_done 1 w s i c hex hin hcur hc hd]
    exact ⟨rfl, rfl⟩

/-! ### Lazy opening: the first pull performs `_initialize_stream` -/

theorem switch_initDone (w : World) (s : FallbackStream) :
    ((switchToFallback w s).2.1).initDone = s.initDone := by
  unfold switchToFallback
  rcases hf : w.fallback.openFails s.text
  · simp only [hf, Bool.false_eq_true, if_false, World.openConn]
  · simp [hf]

theorem switch_exhaustedF (w : World) (s : FallbackStream) :
    ((switchToFallback w s).2.1).exhausted = s.exhausted := by
  unfold switchToFallback
  rcases hf : w.fallback.openFails s.text
  · simp only [hf, Bool.false_eq_true, if_false, World.openConn]
  · simp [hf]

theorem initStream_exhausted (w : World) (s : FallbackStream) :
    ((initStream w s).2.1).exhausted = s.exhausted := by
  unfold initStream
  rcases h0 : s.initDone
  · rcases hp : w.primary.openFails s.text
    · simp only [h0, Bool.false_eq_true, if_false, hp, World.openConn]
    · simp only [h0, Bool.false_eq_true, if_false, hp, if_true]
      rw [switch_exhaustedF]
  · simp [h0]

theorem initStream_initDone (w : World) (s : FallbackStream) :
    ((initStream w s).2.1).initDone = true := by
  unfold initStream
  rcases h0 : s.initDone
  · rcases hp : w.primary.openFails s.text
    · simp only [h0, Bool.false_eq_true, if_false, hp, World.openConn]
    · simp only [h0, Bool.false_eq_true, if_false, hp, if_true]
      rw [switch_initDone]
  · simp [h0]

theorem anext_init_skip (fuel : Nat) (w : World) (s : FallbackStream)
    (hex : s.exhausted = false)
    (hfalse : (initStream w s).2.2 = false) :
    fbAnext (fuel + 1) w s =
      fbAnext (fuel + 1) (initStream w s).1 (initStream w s).2.1 := by
  have hex' : ((initStream w s).2.1).exhausted = false := by
    rw [initStream_exhausted, hex]
  have hin' : ((initStream w s).2.1).initDone = true := initStream_initDone w s
  rcases hi : initStream w s with ⟨w', s', b⟩
  rw [hi] at hfalse hex' hin'
  dsimp only at hfalse hex' hin'
  subst hfalse
  conv_lhs => rw [fbAnext]
  conv_rhs => rw [fbAnext]
  simp only [hex, hex', Bool.false_eq_true, if_false]
  rw [hi, init_skip w' s' hin']

theorem drain_init_skip (fuel : Nat) (w : World) (s : FallbackStream)
    (hex : s.exhausted = false)
    (hfalse : (initStream w s).2.2 = false) :
    drain (fuel + 1) w s =
      drain (fuel + 1) (initStream w s).1 (initStream w s).2.1 := by
  rw [drain, drain]
  rw [show FallbackStream.anext w s
      = FallbackStream.anext (initStream w s).1 (initStream w s).2.1 from
    anext_init_skip 1 w s hex hfalse]

/-! ### The provider switch inside a pull -/

theorem anext_fuel_steady (fuelA fuelB : Nat) (w : World) (s : FallbackStream)
    (i : Nat) (c : Conn)
    (hex : s.exhausted = false) (hin : s.initDone = true)
    (hcur : s.current = some i) (hc : w.conns[i]? = some c)
    (hd : c.done = false)
    (hub : (c.pending (w.backendOf c.side)).term = .err →
      s.usingFallback = true) :
    fbAnext (fuelA + 1) w s = fbAnext (fuelB + 1) w s := by
  rcases hpc : c.pending (w.backendOf c.side) with ⟨fr, tm⟩
  rcases fr with _ | ⟨f0, ff⟩
  · rcases tm with _ | _
    · rw [anext_eos fuelA w s i c hex hin hcur hc hd hpc,
          anext_eos fuelB w s i c hex hin hcur hc hd hpc]
    · have hub' : s.usingFallback = true := by
        apply hub
        rw [hpc]
      rw [anext_err_ub fuelA w s i c hex hin hcur hc hd hpc hub',
          anext_err_ub fuelB w s i c hex hin hcur hc hd hpc hub']
  · rw [anext_frame fuelA w s i c f0 ff tm hex hin hcur hc hd hpc,
        anext_frame fuelB w s i c f0 ff tm hex hin hcur hc hd hpc]

theorem switched_conn (w : World) (s : FallbackStream) (i : Nat) (c : Conn) :
    ({ w with
        conns := w.conns.set i (c.spent .err) ++
          [Conn.replayed .fallback s.text s.textBuffer s.segmentEnded],
        fallbackStreamCalls := w.fallbackStreamCalls + 1 } :
      World).conns[w.conns.length]?
      = some (Conn.replayed .fallback s.text s.textBuffer s.segmentEnded) := by
  show ((w.conns.set i (c.spent .err)) ++ [_])[w.conns.length]? = _
  rw [show w.conns.length = (w.conns.set i (c.spent .err)).length by simp]
  exact getElem_concat _ _

theorem anext_switch_skip (w : World) (s : FallbackStream) (i : Nat) (c : Conn)
    (hex : s.exhausted = false) (hin : s.initDone = true)
    (hcur : s.current = some i) (hc : w.conns[i]? = some c)
    (hd : c.done = false)
    (hp : c.pending (w.backendOf c.side) = ⟨[], .err⟩)
    (hub : s.usingFallback = false)
    (hf : w.fallback.openFails s.text = false) :
    FallbackStream.anext w s =
      FallbackStream.anext
        { w with
            conns := w.conns.set i (c.spent .err) ++
              [Conn.replayed .fallback s.text s.textBuffer s.segmentEnded],
            fallbackStreamCalls := w.fallbackStreamCalls + 1 }
        { s with usingFallback := true, current := some w.conns.length } := by
  show fbAnext 2 w s = fbAnext 2 _ _
  rw [show fbAnext 2 w s = _ from anext_err_switch 0 w s i c hex hin hcur hc hd hp hub hf]
  exact anext_fuel_steady 0 1 _ _ w.conns.length
    (Conn.replayed .fallback s.text s.textBuffer s.segmentEnded)
    (by simpa using hex) (by simpa using hin) rfl
    (switched_conn w s i c) rfl (fun _ => rfl)

theorem drain_switch_skip (fuel : Nat) (w : World) (s : FallbackStream)
    (i : Nat) (c : Conn)
    (hex : s.exhausted = false) (hin : s.initDone = true)
    (hcur : s.current = some i) (hc : w.conns[i]? = some c)
    (hd : c.done = false)
    (hp : c.pending (w.backendOf c.side) = ⟨[], .err⟩)
    (hub : s.usingFallback = false)
    (hf : w.fallback.openFails s.text = false) :
    drain (fuel + 1) w s =
      drain (fuel + 1)
        { w with
            conns := w.conns.set i (c.spent .err) ++
              [Conn.replayed .fallback s.text s.textBuffer s.segmentEnded],
            fallbackStreamCalls := w.fallbackStreamCalls + 1 }
        { s with usingFallback := true, current := some w.conns.length } := by
  rw [drain, drain,
    anext_switch_skip w s i c hex hin hcur hc hd hp hub hf]

/-- Draining across the PRIMARY→SECONDARY switch: the primary connection
emits `rest` frames then raises; the fallback opens, the whole buffer is
replayed onto it, and it is drained to its own terminator. -/
theorem drain_preswitch (rest : List Frame) :
    ∀ (fuel : Nat) (w : World) (s : FallbackStream) (i : Nat) (c : Conn),
    s.exhausted = false → s.initDone = true → s.current = some i →
    w.conns[i]? = some c → c.done = false →
    c.pending (w.backendOf c.side) = ⟨rest, .err⟩ →
    s.usingFallback = false →
    w.fallback.openFails s.text = false →
    rest.length
      + (w.fallback.script s.text s.textBuffer s.segmentEnded).frames.length
      < fuel →
    drain fuel w s =
      (rest ++ (w.fallback.script s.text s.textBuffer s.segmentEnded).frames,
       termOut (w.fallback.script s.text s.textBuffer s.segmentEnded).term,
       { w with
           conns := w.conns.set i (c.spent .err) ++
             [(Conn.replayed .fallback s.text s.textBuffer s.segmentEnded).spent
               (w.fallback.script s.text s.textBuffer s.segmentEnded).term],
           fallbackStreamCalls := w.fallbackStreamCalls + 1 },
       match (w.fallback.script s.text s.textBuffer s.segmentEnded).term with
       | .eos => { s with
           usingFallback := true, current := some w.conns.length,
           frameCount := s.frameCount + rest.length
             + (w.fallback.script s.text s.textBuffer s.segmentEnded).frames.length,
           exhausted := true }
       | .err => { s with
           usingFallback := true, current := some w.conns.length,
           frameCount := s.frameCount + rest.length
             + (w.fallback.script s.text s.textBuffer s.segmentEnded).frames.length }) := by
  induction rest with
  | nil =>
    intro fuel w s i c hex hin hcur hc hd hp hub hf hfuel
    cases fuel with
    | zero => omega
    | succ fu =>
      rw [drain_switch_skip fu w s i c hex hin hcur hc hd hp hub hf]
      rw [drain_steady (w.fallback.script s.text s.textBuffer s.segmentEnded).term
        (w.fallback.script s.text s.textBuffer s.segmentEnded).frames
        (fu + 1) _ _ w.conns.length
        (Conn.replayed .fallback s.text s.textBuffer s.segmentEnded)
        (by simpa using hex) (by simpa using hin) rfl
        (switched_conn w s i c) rfl rfl (fun _ => rfl)
        (by simpa using hfuel)]
      rw [World.setConn]
      dsimp only
      rw [show w.conns.length = (w.conns.set i (c.spent .err)).length by simp,
        set_concat]
      rcases hterm : (w.fallback.script s.text s.textBuffer s.segmentEnded).term <;>
        simp [hterm]
  | cons fr rest ih =>
    intro fuel w s i c hex hin hcur hc hd hp hub hf hfuel
    cases fuel with
    | zero => omega
    | succ fu =>
      rw [drain]
      rw [show FallbackStream.anext w s = _ from
        anext_frame 1 w s i c fr rest .err hex hin hcur hc hd hp]
      dsimp only
      rw [ih fu (w.setConn i { c with live := some ⟨rest, .err⟩ })
        { s with frameCount := s.frameCount + 1 } i
        { c with live := some ⟨rest, .err⟩ }
        (by simpa using hex) (by simpa using hin) (by simpa using hcur)
        (setConn_getElem w i _ c hc) (by simpa using hd)
        (by simp [Conn.pending]) (by simpa using hub) (by simpa using hf)
        (by simp at hfuel; simp; omega)]
      have harith : ∀ n : Nat, s.frameCount + 1 + rest.length + n
          = s.frameCount + (rest.length + 1) + n := by omega
      rcases hterm : (w.fallback.script s.text s.textBuffer s.segmentEnded).term <;>
        simp [World.setConn, List.set_set, Conn.spent, harith, hterm]

/-- Draining when the primary fails mid-stream and the fallback `stream()`
call itself raises: the frames seen so far, then the fatal error. -/
theorem drain_preswitch_fail (rest : List Frame) :
    ∀ (fuel : Nat) (w : World) (s : FallbackStream) (i : Nat) (c : Conn),
    s.exhausted = false → s.initDone = true → s.current = some i →
    w.conns[i]? = some c → c.done = false →
    c.pending (w.backendOf c.side) = ⟨rest, .err⟩ →
    s.usingFallback = false →
    w.fallback.openFails s.text = true →
    rest.length < fuel →
    drain fuel w s =
      (rest, .errored,
       { w with conns := w.conns.set i (c.spent .err),
                fallbackStreamCalls := w.fallbackStreamCalls + 1 },
       { s with usingFallback := true,
                frameCount := s.frameCount + rest.length }) := by
  induction rest with
  | nil =>
    intro fuel w s i c hex hin hcur hc hd hp hub hf hfuel
    cases fuel with
    | zero => omega
    | succ fu =>
      rw [drain]
      rw [show FallbackStream.anext w s = _ from
        anext_err_switchfail 1 w s i c hex hin hcur hc hd hp hub hf]
      simp
  | cons fr rest ih =>
    intro fuel w s i c hex hin hcur hc hd hp hub hf hfuel
    cases fuel with
    | zero => omega
    | succ fu =>
      rw [drain]
      rw [show FallbackStream.anext w s = _ from
        anext_frame 1 w s i c fr rest .err hex hin hcur hc hd hp]
      dsimp only
      rw [ih fu (w.setConn i { c with live := some ⟨rest, .err⟩ })
        { s with frameCount := s.frameCount + 1 } i
        { c with live := some ⟨rest, .err⟩ }
        (by simpa using hex) (by simpa using hin) (by simpa using hcur)
        (setConn_getElem w i _ c hc) (by simpa using hd)
        (by simp [Conn.pending]) (by simpa using hub) (by simpa using hf)
        (by simp at hfuel; omega)]
      have harith : s.frameCount + 1 + rest.length
          = s.frameCount + (rest.length + 1) := by omega
      simp [World.setConn, List.set_set, Conn.spent, harith]

/-! ### Scenario plumbing -/

/-- The world right after `FallbackTTS.stream` handed out the
`FallbackSynthesizeStream` (force-failure mode off). -/
def streamWorld (p f : Backend) (text : String) : World :=
  { initWorld p f false with
      activeProvider := "primary",
      streams := [.fb (FallbackStream.fresh text)] }

/-- The stream after the caller pushed `chunks` and marked the segment end,
before the first pull. -/
def bufferedStream (text : String) (chunks : List String) : FallbackStream :=
  { FallbackStream.fresh text with
      textBuffer := chunks, segmentEnded := true }

theorem scenario_drain (p f : Backend) (text : String) (chunks : List String)
    (fuel : Nat) :
    scenario p f text chunks fuel
      = drain fuel (streamWorld p f text) (bufferedStream text chunks) := by
  simp only [scenario]
  rw [setup_eval]
  rfl

/-- The world after the first pull lazily opened the primary connection and
replayed the buffer onto it. -/
def postOpenWorld (p f : Backend) (text : String) (chunks : List String) :
    World :=
  { streamWorld p f text with
      primaryStreamCalls := 1,
      conns := [Conn.replayed .primary text chunks true] }

def postOpenStream (text : String) (chunks : List String) : FallbackStream :=
  { bufferedStream text chunks with initDone := true, current := some 0 }

theorem open_primary (p f : Backend) (text : String) (chunks : List String)
    (hp : p.openFails text = false) :
    initStream (streamWorld p f text) (bufferedStream text chunks)
      = (postOpenWorld p f text chunks, postOpenStream text chunks, false) := by
  rw [init_eval _ _ rfl hp]
  rfl

theorem scenario_open (p f : Backend) (text : String) (chunks : List String)
    (fuel : Nat) (hp : p.openFails text = false) :
    scenario p f text chunks (fuel + 1)
      = drain (fuel + 1) (postOpenWorld p f text chunks)
          (postOpenStream text chunks) := by
  rw [scenario_drain]
  rw [drain_init_skip fuel _ _ rfl (by rw [open_primary p f text chunks hp])]
  rw [open_primary p f text chunks hp]

/-! ### Claim theorems -/

/-- C1: if the primary backend's stream-open, push, mark-end and next-frame
operations never fail, the frame sequence the caller pulls from the
`FallbackSynthesizeStream` equals exactly the frames the primary produces
standalone for the same input, and the synthesizer's active-provider
reports `"primary"` throughout the utterance. -/
theorem claim1_primary_healthy (p f : Backend) (text : String)
    (chunks : List String)
    (h1 : p.openFails text = false)
    (h2 : (p.script text chunks true).term = .eos) :
    (scenario p f text chunks
        ((p.script text chunks true).frames.length + 1)).1
      = (standalone p text chunks
          ((p.script text chunks true).frames.length + 1)).1
    ∧ (scenario p f text chunks
        ((p.script text chunks true).frames.length + 1)).2.1 = .stopped
    ∧ ∀ fuel,
        ((drain fuel (setup p f text chunks).1
            (setup p f text chunks).2).2.2.1).activeProvider = "primary" := by
  have hrun := scenario_open p f text chunks
    (p.script text chunks true).frames.length h1
  have hsteady := drain_steady .eos (p.script text chunks true).frames
    ((p.script text chunks true).frames.length + 1)
    (postOpenWorld p f text chunks) (postOpenStream text chunks) 0
    (Conn.replayed .primary text chunks true)
    rfl rfl rfl rfl rfl (by rw [← h2]; rfl) (fun h => by cases h) (by omega)
  refine ⟨?_, ?_, ?_⟩
  · rw [hrun, hsteady,
      standalone_eval p text chunks ((p.script text chunks true).frames.length + 1)
        (by omega)]
  · rw [hrun, hsteady]
    rfl
  · intro fuel
    rw [setup_eval, drain_provider]

/-- C2: if the primary emits `k > 0` frames then fails mid-stream, the
caller observes exactly those `k` frames, in order, followed by the
secondary's full output for the same buffered text. -/
theorem claim2_midstream_failover (p f : Backend) (text : String)
    (chunks : List String)
    (hpo : p.openFails text = false)
    (hterm : (p.script text chunks true).term = .err)
    (hk : (p.script text chunks true).frames.length ≠ 0)
    (hfo : f.openFails text = false)
    (hfterm : (f.script text chunks true).term = .eos) :
    (scenario p f text chunks
        ((p.script text chunks true).frames.length
          + (f.script text chunks true).frames.length + 1)).1
      = (p.script text chunks true).frames ++ (f.script text chunks true).frames
    ∧ (scenario p f text chunks
        ((p.script text chunks true).frames.length
          + (f.script text chunks true).frames.length + 1)).2.1 = .stopped := by
  have hrun := scenario_open p f text chunks
    ((p.script text chunks true).frames.length
      + (f.script text chunks true).frames.length) hpo
  have hsw := drain_preswitch (p.script text chunks true).frames
    ((p.script text chunks true).frames.length
      + (f.script text chunks true).frames.length + 1)
    (postOpenWorld p f text chunks) (postOpenStream text chunks) 0
    (Conn.replayed .primary text chunks true)
    rfl rfl rfl rfl rfl (by rw [← hterm]; rfl) rfl hfo
    (by show (p.script text chunks true).frames.length
          + (f.script text chunks true).frames.length
          < (p.script text chunks true).frames.length
          + (f.script text chunks true).frames.length + 1
        omega)
  refine ⟨?_, ?_⟩
  · rw [hrun, hsw]
    rfl
  · rw [hrun, hsw]
    dsimp only
    rw [show ((postOpenWorld p f text chunks).fallback.script
        (postOpenStream text chunks).text (postOpenStream text chunks).textBuffer
        (postOpenStream text chunks).segmentEnded).term = Term.eos from hfterm]
    rfl


/-- C4: the fallback happens at most once per utterance; a failure of the
secondary backend (open-time or mid-stream) surfaces as an error
distinguishable from normal end-of-stream, after which no further frames
are returned. -/
theorem claim4_secondary_fatal (p f : Backend) (text : String)
    (chunks : List String)
    (hpo : p.openFails text = false)
    (hterm : (p.script text chunks true).term = .err)
    (hsec : f.openFails text = true ∨ (f.script text chunks true).term = .err) :
    (scenario p f text chunks
        ((p.script text chunks true).frames.length
          + (f.script text chunks true).frames.length + 1)).2.1 = .errored
    ∧ (scenario p f text chunks
        ((p.script text chunks true).frames.length
          + (f.script text chunks true).frames.length + 1)).2.2.1.fallbackStreamCalls
        = 1
    ∧ ∀ fuel2,
        (drain fuel2
          (scenario p f text chunks
            ((p.script text chunks true).frames.length
              + (f.script text chunks true).frames.length + 1)).2.2.1
          (scenario p f text chunks
            ((p.script text chunks true).frames.length
              + (f.script text chunks true).frames.length + 1)).2.2.2).1 = [] := by
  have hrun := scenario_open p f text chunks
    ((p.script text chunks true).frames.length
      + (f.script text chunks true).frames.length) hpo
  rcases hof : f.openFails text
  · rcases hsec with h | hfe
    · rw [hof] at h
      cases h
    · have hfe' : ((postOpenWorld p f text chunks).fallback.script
          (postOpenStream text chunks).text (postOpenStream text chunks).textBuffer
          (postOpenStream text chunks).segmentEnded).term = Term.err := hfe
      have hsw := drain_preswitch (p.script text chunks true).frames
        ((p.script text chunks true).frames.length
          + (f.script text chunks true).frames.length + 1)
        (postOpenWorld p f text chunks) (postOpenStream text chunks) 0
        (Conn.replayed .primary text chunks true)
        rfl rfl rfl rfl rfl (by rw [← hterm]; rfl) rfl hof
        (by show (p.script text chunks true).frames.length
              + (f.script text chunks true).frames.length
              < (p.script text chunks true).frames.length
              + (f.script text chunks true).frames.length + 1
            omega)
      refine ⟨?_, ?_, ?_⟩
      · rw [hrun, hsw]
        dsimp only
        rw [hfe']
        rfl
      · rw [hrun, hsw]
        rfl
      · intro fuel2
        rw [hrun, hsw]
        dsimp only
        rw [hfe']
        refine (drain_doneConn fuel2 _ _ 1
          ((Conn.replayed .fallback (postOpenStream text chunks).text
            (postOpenStream text chunks).textBuffer
            (postOpenStream text chunks).segmentEnded).spent .err)
          rfl rfl rfl ?_ ?_).1
        · rfl
        · rfl
  · have hsw := drain_preswitch_fail (p.script text chunks true).frames
      ((p.script text chunks true).frames.length
        + (f.script text chunks true).frames.length + 1)
      (postOpenWorld p f text chunks) (postOpenStream text chunks) 0
      (Conn.replayed .primary text chunks true)
      rfl rfl rfl rfl rfl (by rw [← hterm]; rfl) rfl hof
      (by show (p.script text chunks true).frames.length
            < (p.script text chunks true).frames.length
            + (f.script text chunks true).frames.length + 1
          omega)
    refine ⟨?_, ?_, ?_⟩
    · rw [hrun, hsw]
    · rw [hrun, hsw]
      rfl
    · intro fuel2
      rw [hrun, hsw]
      refine (drain_doneConn fuel2 _ _ 0
        ((Conn.replayed .primary text chunks true).spent .err)
        rfl rfl rfl ?_ ?_).1
      · rfl
      · rfl

theorem setup_is (p f : Backend) (text : String) (chunks : List String) :
    setup p f text chunks
      = (streamWorld p f text, bufferedStream text chunks) := by
  rw [setup_eval]
  rfl

/-- A pull in a steady state only updates the current connection's cursor:
its identity, received chunks and marker are untouched. -/
theorem anext_steady_conns (w : World) (s : FallbackStream) (i : Nat)
    (c : Conn)
    (hex : s.exhausted = false) (hin : s.initDone = true)
    (hcur : s.current = some i) (hc : w.conns[i]? = some c)
    (hd : c.done = false)
    (hub : (c.pending (w.backendOf c.side)).term = .err →
      s.usingFallback = true) :
    ∃ c', (FallbackStream.anext w s).2.1 = w.setConn i c'
      ∧ c'.side = c.side ∧ c'.pushed = c.pushed ∧ c'.ended = c.ended := by
  rcases hpc : c.pending (w.backendOf c.side) with ⟨fr, tm⟩
  rcases fr with _ | ⟨f0, ff⟩
  · rcases tm with _ | _
    · exact ⟨c.spent .eos,
        by rw [show FallbackStream.anext w s = _ from
          anext_eos 1 w s i c hex hin hcur hc hd hpc], rfl, rfl, rfl⟩
    · have hub' : s.usingFallback = true := by
        apply hub
        rw [hpc]
      exact ⟨c.spent .err,
        by rw [show FallbackStream.anext w s = _ from
          anext_err_ub 1 w s i c hex hin hcur hc hd hpc hub'], rfl, rfl, rfl⟩
  · exact ⟨{ c with live := some ⟨ff, tm⟩ },
      by rw [show FallbackStream.anext w s = _ from
        anext_frame 1 w s i c f0 ff tm hex hin hcur hc hd hpc], rfl, rfl, rfl⟩

/-- The world right after `_switch_to_fallback` replaced the failed primary
connection (which stays open and unreleased) by a fresh fallback connection
carrying the replayed buffer. -/
def switchedWorld (p f : Backend) (text : String) (chunks : List String) :
    World :=
  { postOpenWorld p f text chunks with
      conns := (postOpenWorld p f text chunks).conns.set 0
          ((Conn.replayed .primary text chunks true).spent .err) ++
        [Conn.replayed .fallback (postOpenStream text chunks).text
          (postOpenStream text chunks).textBuffer
          (postOpenStream text chunks).segmentEnded],
      fallbackStreamCalls := (postOpenWorld p f text chunks).fallbackStreamCalls + 1 }

def switchedStream (p f : Backend) (text : String) (chunks : List String) :
    FallbackStream :=
  { postOpenStream text chunks with
      usingFallback := true,
      current := some (postOpenWorld p f text chunks).conns.length }

/-- C5: push "Hello" then "world", mark the end, primary fails on the first
pull: the secondary connection receives the buffered chunks and the
end-marker exactly once each, in that order, and the full frame output is
the secondary's script for exactly that input. -/
theorem claim5_hello_world_replay (p f : Backend) (text : String)
    (hpo : p.openFails text = false)
    (hps : p.script text ["Hello", "world"] true = ⟨[], .err⟩)
    (hfo : f.openFails text = false) :
    ((FallbackStream.anext (setup p f text ["Hello", "world"]).1
        (setup p f text ["Hello", "world"]).2).2.1).conns.length = 2
    ∧ ((FallbackStream.anext (setup p f text ["Hello", "world"]).1
        (setup p f text ["Hello", "world"]).2).2.1).conns[1]?.map
          (fun c => (c.side, c.pushed, c.ended))
        = some (.fallback, ["Hello", "world"], true)
    ∧ (scenario p f text ["Hello", "world"]
        ((f.script text ["Hello", "world"] true).frames.length + 1)).1
      = (f.script text ["Hello", "world"] true).frames := by
  have hskip : FallbackStream.anext (streamWorld p f text)
      (bufferedStream text ["Hello", "world"])
      = FallbackStream.anext (postOpenWorld p f text ["Hello", "world"])
          (postOpenStream text ["Hello", "world"]) := by
    have h := anext_init_skip 1 (streamWorld p f text)
      (bufferedStream text ["Hello", "world"]) rfl
      (by rw [open_primary p f text ["Hello", "world"] hpo])
    rw [open_primary p f text ["Hello", "world"] hpo] at h
    exact h
  have hsw : FallbackStream.anext (postOpenWorld p f text ["Hello", "world"])
      (postOpenStream text ["Hello", "world"])
      = FallbackStream.anext (switchedWorld p f text ["Hello", "world"])
          (switchedStream p f text ["Hello", "world"]) :=
    anext_switch_skip (postOpenWorld p f text ["Hello", "world"])
      (postOpenStream text ["Hello", "world"]) 0
      (Conn.replayed .primary text ["Hello", "world"] true)
      rfl rfl rfl rfl rfl hps rfl hfo
  obtain ⟨c', hres, hside, hpush, hend⟩ :=
    anext_steady_conns (switchedWorld p f text ["Hello", "world"])
      (switchedStream p f text ["Hello", "world"]) 1
      (Conn.replayed .fallback (postOpenStream text ["Hello", "world"]).text
        (postOpenStream text ["Hello", "world"]).textBuffer
        (postOpenStream text ["Hello", "world"]).segmentEnded)
      rfl rfl rfl rfl rfl (fun _ => rfl)
  refine ⟨?_, ?_, ?_⟩
  · rw [setup_is]
    dsimp only
    rw [hskip, hsw, hres]
    rfl
  · rw [setup_is]
    dsimp only
    rw [hskip, hsw, hres]
    show some (c'.side, c'.pushed, c'.ended) = _
    rw [hside, hpush, hend]
    rfl
  · have hrun := scenario_open p f text ["Hello", "world"]
      (f.script text ["Hello", "world"] true).frames.length hpo
    have hdr := drain_preswitch []
      ((f.script text ["Hello", "world"] true).frames.length + 1)
      (postOpenWorld p f text ["Hello", "world"])
      (postOpenStream text ["Hello", "world"]) 0
      (Conn.replayed .primary text ["Hello", "world"] true)
      rfl rfl rfl rfl rfl hps rfl hfo
      (by show 0 + (f.script text ["Hello", "world"] true).frames.length
            < (f.script text ["Hello", "world"] true).frames.length + 1
          omega)
    rw [hrun, hdr]
    rfl

/-! ### Concrete example backends for witnesses and counterexamples -/

/-- A primary backend that opens fine and fails after two frames. -/
def exMidFailPrimary : Backend :=
  { openFails := fun _ => false, synthFails := fun _ => false,
    script := fun _ _ _ => ⟨[1, 2], .err⟩ }

/-- A primary backend whose `stream()` call raises. -/
def exOpenFailPrimary : Backend :=
  { openFails := fun _ => true, synthFails := fun _ => false,
    script := fun _ _ _ => ⟨[], .eos⟩ }

/-- A primary backend that fails on the very first pull. -/
def exFirstPullFailPrimary : Backend :=
  { openFails := fun _ => false, synthFails := fun _ => false,
    script := fun _ _ _ => ⟨[], .err⟩ }

/-- A healthy fallback backend emitting two frames. -/
def exHealthyFallback : Backend :=
  { openFails := fun _ => false, synthFails := fun _ => false,
    script := fun _ _ _ => ⟨[7, 8], .eos⟩ }

/-- A fallback backend that emits one frame then fails. -/
def exMidFailFallback : Backend :=
  { openFails := fun _ => false, synthFails := fun _ => false,
    script := fun _ _ _ => ⟨[50], .err⟩ }

/-- A healthy primary emitting three frames. -/
def exHealthyPrimary : Backend :=
  { openFails := fun _ => false, synthFails := fun _ => false,
    script := fun _ _ _ => ⟨[1, 2, 3], .eos⟩ }

/-- C6 counterexample: in the run where the primary emits two frames and
fails, the secondary connection is opened while the failed primary
connection is still open (never released), and even after `aclose` the
primary connection remains unreleased — `aclose` only closes the currently
tracked (secondary) connection.  This refutes both "the secondary is opened
only after the failed primary has been torn down" and "close releases the
open backend connection on every exit path". -/
theorem claim6_counterexample :
    ((fbClose (scenario exMidFailPrimary exHealthyFallback "t" ["a"] 5).2.2.1
        (scenario exMidFailPrimary exHealthyFallback "t" ["a"] 5).2.2.2).conns.map
      (fun c => (c.side, c.closed)))
      = [(.primary, false), (.fallback, true)] := by
  rfl

/-- C6 amended: when the primary fails mid-stream and the secondary
completes the utterance, two connections exist; the abandoned primary
connection is never released, and `aclose` releases exactly the currently
tracked (secondary) connection. -/
theorem claim6_amended_close_current_only (p f : Backend) (text : String)
    (chunks : List String)
    (hpo : p.openFails text = false)
    (hterm : (p.script text chunks true).term = .err)
    (hfo : f.openFails text = false)
    (hfterm : (f.script text chunks true).term = .eos) :
    ((fbClose
        (scenario p f text chunks
          ((p.script text chunks true).frames.length
            + (f.script text chunks true).frames.length + 1)).2.2.1
        (scenario p f text chunks
          ((p.script text chunks true).frames.length
            + (f.script text chunks true).frames.length + 1)).2.2.2).conns.map
      (fun c => (c.side, c.closed)))
      = [(.primary, false), (.fallback, true)] := by
  have hrun := scenario_open p f text chunks
    ((p.script text chunks true).frames.length
      + (f.script text chunks true).frames.length) hpo
  have hfterm' : ((postOpenWorld p f text chunks).fallback.script
      (postOpenStream text chunks).text (postOpenStream text chunks).textBuffer
      (postOpenStream text chunks).segmentEnded).term = Term.eos := hfterm
  have hsw := drain_preswitch (p.script text chunks true).frames
    ((p.script text chunks true).frames.length
      + (f.script text chunks true).frames.length + 1)
    (postOpenWorld p f text chunks) (postOpenStream text chunks) 0
    (Conn.replayed .primary text chunks true)
    rfl rfl rfl rfl rfl (by rw [← hterm]; rfl) rfl hfo
    (by show (p.script text chunks true).frames.length
          + (f.script text chunks true).frames.length
          < (p.script text chunks true).frames.length
          + (f.script text chunks true).frames.length + 1
        omega)
  rw [hrun, hsw]
  dsimp only
  rw [hfterm']
  rfl

/-- C3 (code_bug demonstration): when the primary fails before its first
frame, the returned frames are exactly the secondary's standalone output,
but `FallbackTTS.active_provider` still reports `"primary"`: it is set in
`FallbackTTS.stream` and `FallbackSynthesizeStream` never updates it after
switching, contradicting the property's own documentation ("which TTS
provider is currently active") and the spec's SECONDARY. -/
theorem claim3_provider_stuck_primary :
    (scenario exOpenFailPrimary exHealthyFallback "hi" ["a"] 3).1
        = (standalone exHealthyFallback "hi" ["a"] 3).1
    ∧ (scenario exOpenFailPrimary exHealthyFallback "hi" ["a"] 3).2.1
        = .stopped
    ∧ (scenario exOpenFailPrimary exHealthyFallback "hi" ["a"] 3).2.2.1.activeProvider
        = "primary"
    ∧ (scenario exOpenFailPrimary exHealthyFallback "hi" ["a"] 3).2.2.2.usingFallback
        = true := by
  exact ⟨rfl, rfl, rfl, rfl⟩

/-! ### Idempotence after end-of-stream -/

theorem anext_stop_exhausted (fuel : Nat) :
    ∀ (w : World) (s : FallbackStream),
    (fbAnext fuel w s).1 = .stop → ((fbAnext fuel w s).2.2).exhausted = true := by
  induction fuel with
  | zero =>
    intro w s h
    cases h
  | succ fuel ih =>
    intro w s
    rw [fbAnext]
    rcases hex : s.exhausted
    · simp only [Bool.false_eq_true, if_false]
      rcases hi : initStream w s with ⟨w', s', b⟩
      rcases b
      · dsimp only
        rcases hcur : s'.current with _ | i
        · dsimp only
          rcases hub : s'.usingFallback
          · simp only [Bool.false_eq_true, if_false]
            rcases hsw : switchToFallback w' s' with ⟨w3, s3, b3⟩
            rcases b3
            · exact ih w3 s3
            · intro h
              cases h
          · intro h
            simp at h
        · dsimp only
          rcases hp : w'.connPull i with ⟨r, w2⟩
          rcases r with f | _ | _
          · intro h
            cases h
          · intro h
            rfl
          · dsimp only
            rcases hub : s'.usingFallback
            · simp only [Bool.false_eq_true, if_false]
              rcases hsw : switchToFallback w2 s' with ⟨w3, s3, b3⟩
              rcases b3
              · exact ih w3 s3
              · intro h
                cases h
            · intro h
              simp at h
      · intro h
        cases h
    · intro h
      simpa using hex

/-- C8: after `__anext__` signals end-of-stream, each further call signals
end-of-stream again with the world and the stream state unchanged. -/
theorem claim8_idempotent_exhaustion (w : World) (s : FallbackStream)
    (h : (FallbackStream.anext w s).1 = .stop) :
    FallbackStream.anext (FallbackStream.anext w s).2.1
        (FallbackStream.anext w s).2.2
      = (.stop, (FallbackStream.anext w s).2.1,
         (FallbackStream.anext w s).2.2) := by
  exact anext_exhausted 1 _ _ (anext_stop_exhausted 2 w s h)

theorem claim8_witness :
    ((FallbackStream.anext (initWorld exHealthyPrimary exHealthyFallback false)
        { FallbackStream.fresh "t" with exhausted := true }).1 = PullRes.stop)
    ∧ FallbackStream.anext
        (FallbackStream.anext (initWorld exHealthyPrimary exHealthyFallback false)
          { FallbackStream.fresh "t" with exhausted := true }).2.1
        (FallbackStream.anext (initWorld exHealthyPrimary exHealthyFallback false)
          { FallbackStream.fresh "t" with exhausted := true }).2.2
      = (.stop,
         (FallbackStream.anext (initWorld exHealthyPrimary exHealthyFallback false)
          { FallbackStream.fresh "t" with exhausted := true }).2.1,
         (FallbackStream.anext (initWorld exHealthyPrimary exHealthyFallback false)
          { FallbackStream.fresh "t" with exhausted := true }).2.2) :=
  ⟨rfl, claim8_idempotent_exhaustion _ _ rfl⟩

/-! ### Observational equivalence of `LoggedSynthesizeStream` -/

/-- One caller operation at the push/mark/pull interface of a synthesis
stream. -/
inductive SOp where
  | push : String → SOp
  | mark : SOp
  | pull : SOp

/-- Run operations directly against a bare backend connection. -/
def runConnOps (b : Backend) : List SOp → Conn → List PullRes × Conn
  | [], c => ([], c)
  | .push t :: ops, c => runConnOps b ops (c.push t)
  | .mark :: ops, c => runConnOps b ops c.markEnd
  | .pull :: ops, c =>
    let rc := Conn.pull b c
    let r := runConnOps b ops rc.2
    (rc.1 :: r.1, r.2)

/-- Run operations through a `LoggedSynthesizeStream` wrapping the
connection at heap index `l.inner`. -/
def runLogOps : List SOp → World → LoggedStream →
    List PullRes × World × LoggedStream
  | [], w, l => ([], w, l)
  | .push t :: ops, w, l => runLogOps ops (logPush w l t) l
  | .mark :: ops, w, l => runLogOps ops (logMark w l) l
  | .pull :: ops, w, l =>
    let rwl := logAnext w l
    let r := runLogOps ops rwl.2.1 rwl.2.2
    (rwl.1 :: r.1, r.2)

theorem Conn.pull_side (b : Backend) (c : Conn) :
    ((Conn.pull b c).2).side = c.side := by
  rcases hd : c.done
  · rcases hfr : (c.pending b).frames with _ | _ <;>
      simp [Conn.pull, hd, hfr]
  · simp [Conn.pull, hd]

@[simp] theorem Conn.push_side (c : Conn) (t : String) :
    (c.push t).side = c.side := rfl

@[simp] theorem Conn.markEnd_side (c : Conn) :
    c.markEnd.side = c.side := rfl

/-- C9: the `LoggedSynthesizeStream` wrapper is observationally equivalent
to the wrapped stream: for every sequence of push/mark/pull operations it
produces exactly the same pull results (frames in content, order and count,
end-of-stream and errors at the same positions), and drives the underlying
connection through exactly the same states. -/
theorem claim9_logged_transparent (ops : List SOp) :
    ∀ (w : World) (l : LoggedStream) (c : Conn),
    w.conns[l.inner]? = some c →
    (runLogOps ops w l).1 = (runConnOps (w.backendOf c.side) ops c).1
    ∧ (runLogOps ops w l).2.1.conns[((runLogOps ops w l).2.2).inner]?
        = some (runConnOps (w.backendOf c.side) ops c).2 := by
  induction ops with
  | nil =>
    intro w l c hc
    exact ⟨rfl, hc⟩
  | cons op ops ih =>
    intro w l c hc
    cases op with
    | push t =>
      show (runLogOps ops (logPush w l t) l).1
          = (runConnOps (w.backendOf c.side) ops (c.push t)).1
        ∧ (runLogOps ops (logPush w l t) l).2.1.conns[
            ((runLogOps ops (logPush w l t) l).2.2).inner]?
          = some (runConnOps (w.backendOf c.side) ops (c.push t)).2
      rw [show logPush w l t = w.setConn l.inner (c.push t) from
        connPush_eval w l.inner c t hc]
      have hrec := ih (w.setConn l.inner (c.push t)) l (c.push t)
        (setConn_getElem w l.inner _ c hc)
      rw [setConn_backendOf, Conn.push_side] at hrec
      exact hrec
    | mark =>
      show (runLogOps ops (logMark w l) l).1
          = (runConnOps (w.backendOf c.side) ops c.markEnd).1
        ∧ (runLogOps ops (logMark w l) l).2.1.conns[
            ((runLogOps ops (logMark w l) l).2.2).inner]?
          = some (runConnOps (w.backendOf c.side) ops c.markEnd).2
      rw [show logMark w l = w.setConn l.inner c.markEnd from
        connMark_eval w l.inner c hc]
      have hrec := ih (w.setConn l.inner c.markEnd) l c.markEnd
        (setConn_getElem w l.inner _ c hc)
      rw [setConn_backendOf, Conn.markEnd_side] at hrec
      exact hrec
    | pull =>
      have hpull := connPull_eval w l.inner c hc
      have hside0 := Conn.pull_side (w.backendOf c.side) c
      show ((logAnext w l).1 ::
            (runLogOps ops (logAnext w l).2.1 (logAnext w l).2.2).1,
            (runLogOps ops (logAnext w l).2.1 (logAnext w l).2.2).2).1
          = ((Conn.pull (w.backendOf c.side) c).1 ::
              (runConnOps (w.backendOf c.side) ops
                (Conn.pull (w.backendOf c.side) c).2).1,
             (runConnOps (w.backendOf c.side) ops
                (Conn.pull (w.backendOf c.side) c).2).2).1
        ∧ (runLogOps ops (logAnext w l).2.1 (logAnext w l).2.2).2.1.conns[
            ((runLogOps ops (logAnext w l).2.1 (logAnext w l).2.2).2.2).inner]?
          = some ((runConnOps (w.backendOf c.side) ops
              (Conn.pull (w.backendOf c.side) c).2).2)
      rcases hr : Conn.pull (w.backendOf c.side) c with ⟨r, c2⟩
      rw [hr] at hpull hside0
      dsimp only at hpull hside0 ⊢
      cases r with
      | frame f =>
        have hlog : logAnext w l =
            (.frame f, w.setConn l.inner c2,
             { l with frameCount := l.frameCount + 1 }) := by
          unfold logAnext
          rw [hpull]
        rw [hlog]
        dsimp only
        have hrec := ih (w.setConn l.inner c2)
          { l with frameCount := l.frameCount + 1 } c2
          (setConn_getElem w l.inner _ c hc)
        rw [setConn_backendOf, hside0] at hrec
        exact ⟨by rw [hrec.1], hrec.2⟩
      | stop =>
        have hlog : logAnext w l = (.stop, w.setConn l.inner c2, l) := by
          unfold logAnext
          rw [hpull]
        rw [hlog]
        dsimp only
        have hrec := ih (w.setConn l.inner c2) l c2
          (setConn_getElem w l.inner _ c hc)
        rw [setConn_backendOf, hside0] at hrec
        exact ⟨by rw [hrec.1], hrec.2⟩
      | err =>
        have hlog : logAnext w l = (.err, w.setConn l.inner c2, l) := by
          unfold logAnext
          rw [hpull]
        rw [hlog]
        dsimp only
        have hrec := ih (w.setConn l.inner c2) l c2
          (setConn_getElem w l.inner _ c hc)
        rw [setConn_backendOf, hside0] at hrec
        exact ⟨by rw [hrec.1], hrec.2⟩

/-! ### Forced-secondary mode and the frame counter -/

def StreamObj.isLogged : StreamObj → Bool
  | .fb _ => false
  | .logged _ => true

/-- Invariant of every reachable world in forced-secondary mode: the flag
stays set, the primary backend was never called, and every stream handed
out is a `LoggedSynthesizeStream` over the fallback. -/
def ForcedInv (w : World) : Prop :=
  w.forceFailure = true ∧ w.primaryStreamCalls = 0 ∧ w.primarySynthCalls = 0
  ∧ ∀ o ∈ w.streams, o.isLogged = true

theorem connPush_cases (w : World) (i : Nat) (t : String) :
    w.connPush i t = w ∨ ∃ c, w.connPush i t = w.setConn i c := by
  unfold World.connPush
  rcases w.conns[i]? with _ | c
  · exact .inl rfl
  · exact .inr ⟨c.push t, rfl⟩

theorem connMark_cases (w : World) (i : Nat) :
    w.connMark i = w ∨ ∃ c, w.connMark i = w.setConn i c := by
  unfold World.connMark
  rcases w.conns[i]? with _ | c
  · exact .inl rfl
  · exact .inr ⟨c.markEnd, rfl⟩

theorem connClose_cases (w : World) (i : Nat) :
    w.connClose i = w ∨ ∃ c, w.connClose i = w.setConn i c := by
  unfold World.connClose
  rcases w.conns[i]? with _ | c
  · exact .inl rfl
  · exact .inr ⟨c.close, rfl⟩

theorem connPull_cases (w : World) (i : Nat) :
    (w.connPull i).2 = w ∨ ∃ c, (w.connPull i).2 = w.setConn i c := by
  unfold World.connPull
  rcases w.conns[i]? with _ | c
  · exact .inl rfl
  · exact .inr ⟨(Conn.pull (w.backendOf c.side) c).2, rfl⟩

@[simp] theorem setConn_force (w : World) (i : Nat) (c : Conn) :
    (w.setConn i c).forceFailure = w.forceFailure := rfl

@[simp] theorem setConn_streams (w : World) (i : Nat) (c : Conn) :
    (w.setConn i c).streams = w.streams := rfl

@[simp] theorem setConn_pstream (w : World) (i : Nat) (c : Conn) :
    (w.setConn i c).primaryStreamCalls = w.primaryStreamCalls := rfl

@[simp] theorem setConn_psynth (w : World) (i : Nat) (c : Conn) :
    (w.setConn i c).primarySynthCalls = w.primarySynthCalls := rfl

@[simp] theorem setStream_force (w : World) (i : Nat) (o : StreamObj) :
    (w.setStream i o).forceFailure = w.forceFailure := rfl

@[simp] theorem setStream_pstream (w : World) (i : Nat) (o : StreamObj) :
    (w.setStream i o).primaryStreamCalls = w.primaryStreamCalls := rfl

@[simp] theorem setStream_psynth (w : World) (i : Nat) (o : StreamObj) :
    (w.setStream i o).primarySynthCalls = w.primarySynthCalls := rfl

@[simp] theorem setStream_streams (w : World) (i : Nat) (o : StreamObj) :
    (w.setStream i o).streams = w.streams.set i o := rfl

theorem ttsStep_forced (w : World) (op : TOp) (h : ForcedInv w) :
    ForcedInv (ttsStep w op).1 := by
  obtain ⟨hff, hps, hpsy, hlog⟩ := h
  cases op with
  | synth t =>
    show ForcedInv (ttsSynthesize w t)
    unfold ttsSynthesize
    rw [hff]
    simp only [if_true]
    exact ⟨rfl, hps, hpsy, hlog⟩
  | stream t =>
    show ForcedInv (ttsStream w t)
    unfold ttsStream
    rw [hff]
    simp only [if_true]
    rcases hof : w.fallback.openFails t
    · simp only [Bool.false_eq_true, if_false, World.openConn]
      refine ⟨rfl, hps, hpsy, ?_⟩
      intro o ho
      rcases List.mem_append.mp ho with hm | hm
      · exact hlog o hm
      · rw [List.mem_singleton.mp hm]
        rfl
    · simp only [if_true]
      exact ⟨rfl, hps, hpsy, hlog⟩
  | push i t =>
    show ForcedInv (ttsStep w (.push i t)).1
    unfold ttsStep
    dsimp only
    rcases hs : w.streams[i]? with _ | o
    · exact ⟨hff, hps, hpsy, hlog⟩
    · rcases o with s | l
      · have := hlog _ (List.getElem?_mem hs)
        cases this
      · dsimp only
        show ForcedInv (w.connPush l.inner t)
        rcases connPush_cases w l.inner t with hcp | ⟨c, hcp⟩ <;> rw [hcp] <;>
          exact ⟨by simp [hff], by simp [hps], by simp [hpsy], by simpa using hlog⟩
  | mark i =>
    show ForcedInv (ttsStep w (.mark i)).1
    unfold ttsStep
    dsimp only
    rcases hs : w.streams[i]? with _ | o
    · exact ⟨hff, hps, hpsy, hlog⟩
    · rcases o with s | l
      · have := hlog _ (List.getElem?_mem hs)
        cases this
      · dsimp only
        show ForcedInv (w.connMark l.inner)
        rcases connMark_cases w l.inner with hcp | ⟨c, hcp⟩ <;> rw [hcp] <;>
          exact ⟨by simp [hff], by simp [hps], by simp [hpsy], by simpa using hlog⟩
  | close i =>
    show ForcedInv (ttsStep w (.close i)).1
    unfold ttsStep
    dsimp only
    rcases hs : w.streams[i]? with _ | o
    · exact ⟨hff, hps, hpsy, hlog⟩
    · rcases o with s | l
      · have := hlog _ (List.getElem?_mem hs)
        cases this
      · dsimp only
        show ForcedInv (w.connClose l.inner)
        rcases connClose_cases w l.inner with hcp | ⟨c, hcp⟩ <;> rw [hcp] <;>
          exact ⟨by simp [hff], by simp [hps], by simp [hpsy], by simpa using hlog⟩
  | pull i =>
    show ForcedInv (ttsStep w (.pull i)).1
    unfold ttsStep
    dsimp only
    rcases hs : w.streams[i]? with _ | o
    · exact ⟨hff, hps, hpsy, hlog⟩
    · rcases o with s | l
      · have := hlog _ (List.getElem?_mem hs)
        cases this
      · dsimp only
        have hw2 : ((logAnext w l).2.1) = w
            ∨ ∃ c, (logAnext w l).2.1 = w.setConn l.inner c := by
          unfold logAnext
          rcases hp : w.connPull l.inner with ⟨r, w2⟩
          have hcp := connPull_cases w l.inner
          rw [hp] at hcp
          rcases r <;> exact hcp
        have hmem : ∀ o' ∈ w.streams.set i
            (StreamObj.logged (logAnext w l).2.2), o'.isLogged = true := by
          intro o' ho'
          rcases List.mem_or_eq_of_mem_set ho' with hm | hm
          · exact hlog o' hm
          · rw [hm]
            rfl
        rcases hw2 with hcp | ⟨c, hcp⟩ <;>
          exact ⟨by simp [hcp, hff], by simp [hcp, hps], by simp [hcp, hpsy],
            by simp only [setStream_streams, hcp, setConn_streams]; exact hmem⟩

theorem ttsRun_forced (ops : List TOp) :
    ∀ w : World, ForcedInv w → ForcedInv (ttsRun w ops) := by
  induction ops with
  | nil => intro w h; exact h
  | cons op ops ih =>
    intro w h
    exact ih _ (ttsStep_forced w op h)

/-- C7: with the construction-time force-primary-failure flag set, the
primary backend is never used: over every sequence of caller operations,
zero calls are made to the primary's `stream` or `synthesize`. -/
theorem claim7_forced_never_primary (p f : Backend) (ops : List TOp) :
    (ttsRun (initWorld p f true) ops).primaryStreamCalls = 0
    ∧ (ttsRun (initWorld p f true) ops).primarySynthCalls = 0 := by
  have h := ttsRun_forced ops (initWorld p f true)
    ⟨rfl, rfl, rfl, by intro o ho; cases ho⟩
  exact ⟨h.2.1, h.2.2.1⟩

@[simp] theorem setStream_audio (w : World) (i : Nat) (o : StreamObj) :
    (w.setStream i o).audioFrameCount = w.audioFrameCount := rfl

theorem ttsStep_audio (w : World) (op : TOp) :
    (ttsStep w op).1.audioFrameCount = w.audioFrameCount := by
  cases op with
  | synth t =>
    show (ttsSynthesize w t).audioFrameCount = _
    unfold ttsSynthesize
    rcases hff : w.forceFailure
    · simp only [Bool.false_eq_true, if_false]
      rcases hsf : w.primary.synthFails t
      · simp only [Bool.false_eq_true, if_false]
      · simp only [if_true]
    · simp only [if_true]
  | stream t =>
    show (ttsStream w t).audioFrameCount = _
    unfold ttsStream
    rcases hff : w.forceFailure
    · simp only [Bool.false_eq_true, if_false]
    · simp only [if_true]
      rcases hof : w.fallback.openFails t
      · simp only [Bool.false_eq_true, if_false, World.openConn]
      · simp only [if_true]
  | push i t =>
    unfold ttsStep
    dsimp only
    rcases w.streams[i]? with _ | o
    · rfl
    · rcases o with s | l
      · dsimp only
        rw [setStream_audio]
        show (fbPush w s t).1.audioFrameCount = _
        unfold fbPush
        rcases s.current with _ | j
        · rfl
        · exact connPush_audio w j t
      · exact connPush_audio w l.inner t
  | mark i =>
    unfold ttsStep
    dsimp only
    rcases w.streams[i]? with _ | o
    · rfl
    · rcases o with s | l
      · dsimp only
        rw [setStream_audio]
        show (fbMark w s).1.audioFrameCount = _
        unfold fbMark
        rcases s.current with _ | j
        · rfl
        · exact connMark_audio w j
      · exact connMark_audio w l.inner
  | close i =>
    unfold ttsStep
    dsimp only
    rcases w.streams[i]? with _ | o
    · rfl
    · rcases o with s | l
      · dsimp only
        show (fbClose w s).audioFrameCount = _
        unfold fbClose
        rcases s.current with _ | j
        · rfl
        · exact connClose_audio w j
      · exact connClose_audio w l.inner
  | pull i =>
    unfold ttsStep
    dsimp only
    rcases w.streams[i]? with _ | o
    · rfl
    · rcases o with s | l
      · dsimp only
        rw [setStream_audio]
        exact fbAnext_audio 2 w s
      · dsimp only
        rw [setStream_audio]
        show ((logAnext w l).2.1).audioFrameCount = _
        unfold logAnext
        rcases hp : w.connPull l.inner with ⟨r, w2⟩
        have h2 := connPull_audio w l.inner
        rw [hp] at h2
        rcases r <;> exact h2

/-- C10: `FallbackTTS._audio_frame_count` is set to 0 at construction and no
operation on the instance or on the streams it hands out ever changes it,
so the public `audio_frame_count` property always returns 0. -/
theorem claim10_audio_frame_count_zero (p f : Backend) (force : Bool)
    (ops : List TOp) :
    (initWorld p f force).audioFrameCount = 0
    ∧ (ttsRun (initWorld p f force) ops).audioFrameCount = 0 := by
  refine ⟨rfl, ?_⟩
  have hstep : ∀ ops (w : World),
      (ttsRun w ops).audioFrameCount = w.audioFrameCount := by
    intro ops
    induction ops with
    | nil => intro w; rfl
    | cons op ops ih =>
      intro w
      rw [show ttsRun w (op :: ops) = ttsRun (ttsStep w op).1 ops from rfl,
        ih (ttsStep w op).1, ttsStep_audio]
  rw [hstep]
  rfl

/-! ### Concrete witnesses -/

theorem claim1_witness :
    (scenario exHealthyPrimary exHealthyFallback "t" ["a", "b"]
        ((exHealthyPrimary.script "t" ["a", "b"] true).frames.length + 1)).1
      = (standalone exHealthyPrimary "t" ["a", "b"]
          ((exHealthyPrimary.script "t" ["a", "b"] true).frames.length + 1)).1
    ∧ (scenario exHealthyPrimary exHealthyFallback "t" ["a", "b"]
        ((exHealthyPrimary.script "t" ["a", "b"] true).frames.length + 1)).2.1
      = .stopped
    ∧ ((drain 7 (setup exHealthyPrimary exHealthyFallback "t" ["a", "b"]).1
        (setup exHealthyPrimary exHealthyFallback "t" ["a", "b"]).2).2.2.1).activeProvider
      = "primary" := by
  have h := claim1_primary_healthy exHealthyPrimary exHealthyFallback
    "t" ["a", "b"] rfl rfl
  exact ⟨h.1, h.2.1, h.2.2 7⟩

theorem claim2_witness :
    (scenario exMidFailPrimary exHealthyFallback "t" ["a"]
        ((exMidFailPrimary.script "t" ["a"] true).frames.length
          + (exHealthyFallback.script "t" ["a"] true).frames.length + 1)).1
      = (exMidFailPrimary.script "t" ["a"] true).frames
        ++ (exHealthyFallback.script "t" ["a"] true).frames
    ∧ (scenario exMidFailPrimary exHealthyFallback "t" ["a"]
        ((exMidFailPrimary.script "t" ["a"] true).frames.length
          + (exHealthyFallback.script "t" ["a"] true).frames.length + 1)).2.1
      = .stopped :=
  claim2_midstream_failover exMidFailPrimary exHealthyFallback "t" ["a"]
    rfl rfl (by decide) rfl rfl

theorem claim4_witness :
    (scenario exMidFailPrimary exMidFailFallback "t" ["a"]
        ((exMidFailPrimary.script "t" ["a"] true).frames.length
          + (exMidFailFallback.script "t" ["a"] true).frames.length + 1)).2.1
      = .errored
    ∧ (scenario exMidFailPrimary exMidFailFallback "t" ["a"]
        ((exMidFailPrimary.script "t" ["a"] true).frames.length
          + (exMidFailFallback.script "t" ["a"] true).frames.length + 1)).2.2.1.fallbackStreamCalls
      = 1
    ∧ (drain 3
        (scenario exMidFailPrimary exMidFailFallback "t" ["a"]
          ((exMidFailPrimary.script "t" ["a"] true).frames.length
            + (exMidFailFallback.script "t" ["a"] true).frames.length + 1)).2.2.1
        (scenario exMidFailPrimary exMidFailFallback "t" ["a"]
          ((exMidFailPrimary.script "t" ["a"] true).frames.length
            + (exMidFailFallback.script "t" ["a"] true).frames.length + 1)).2.2.2).1
      = [] := by
  have h := claim4_secondary_fatal exMidFailPrimary exMidFailFallback "t" ["a"]
    rfl rfl (Or.inr rfl)
  exact ⟨h.1, h.2.1, h.2.2 3⟩

theorem claim5_witness :
    ((FallbackStream.anext
        (setup exFirstPullFailPrimary exHealthyFallback "t" ["Hello", "world"]).1
        (setup exFirstPullFailPrimary exHealthyFallback "t" ["Hello", "world"]).2).2.1).conns.length
      = 2
    ∧ ((FallbackStream.anext
        (setup exFirstPullFailPrimary exHealthyFallback "t" ["Hello", "world"]).1
        (setup exFirstPullFailPrimary exHealthyFallback "t" ["Hello", "world"]).2).2.1).conns[1]?.map
          (fun c => (c.side, c.pushed, c.ended))
      = some (.fallback, ["Hello", "world"], true)
    ∧ (scenario exFirstPullFailPrimary exHealthyFallback "t" ["Hello", "world"]
        ((exHealthyFallback.script "t" ["Hello", "world"] true).frames.length + 1)).1
      = (exHealthyFallback.script "t" ["Hello", "world"] true).frames :=
  claim5_hello_world_replay exFirstPullFailPrimary exHealthyFallback "t"
    rfl rfl rfl

theorem claim6_witness :
    ((fbClose
        (scenario exMidFailPrimary exHealthyFallback "u" ["b"]
          ((exMidFailPrimary.script "u" ["b"] true).frames.length
            + (exHealthyFallback.script "u" ["b"] true).frames.length + 1)).2.2.1
        (scenario exMidFailPrimary exHealthyFallback "u" ["b"]
          ((exMidFailPrimary.script "u" ["b"] true).frames.length
            + (exHealthyFallback.script "u" ["b"] true).frames.length + 1)).2.2.2).conns.map
      (fun c => (c.side, c.closed)))
      = [(.primary, false), (.fallback, true)] :=
  claim6_amended_close_current_only exMidFailPrimary exHealthyFallback "u" ["b"]
    rfl rfl rfl rfl

theorem claim9_witness :
    (runLogOps [SOp.push "x", SOp.mark, SOp.pull, SOp.pull, SOp.pull]
        { initWorld exHealthyPrimary exHealthyFallback false with
            conns := [Conn.fresh .fallback "t"] }
        ⟨0, "fallback", 0⟩).1
      = (runConnOps
          (({ initWorld exHealthyPrimary exHealthyFallback false with
              conns := [Conn.fresh .fallback "t"] } : World).backendOf
            (Conn.fresh .fallback "t").side)
          [SOp.push "x", SOp.mark, SOp.pull, SOp.pull, SOp.pull]
          (Conn.fresh .fallback "t")).1
    ∧ (runLogOps [SOp.push "x", SOp.mark, SOp.pull, SOp.pull, SOp.pull]
        { initWorld exHealthyPrimary exHealthyFallback false with
            conns := [Conn.fresh .fallback "t"] }
        ⟨0, "fallback", 0⟩).2.1.conns[
          ((runLogOps [SOp.push "x", SOp.mark, SOp.pull, SOp.pull, SOp.pull]
            { initWorld exHealthyPrimary exHealthyFallback false with
                conns := [Conn.fresh .fallback "t"] }
            ⟨0, "fallback", 0⟩).2.2).inner]?
      = some (runConnOps
          (({ initWorld exHealthyPrimary exHealthyFallback false with
              conns := [Conn.fresh .fallback "t"] } : World).backendOf
            (Conn.fresh .fallback "t").side)
          [SOp.push "x", SOp.mark, SOp.pull, SOp.pull, SOp.pull]
          (Conn.fresh .fallback "t")).2 :=
  claim9_logged_transparent [SOp.push "x", SOp.mark, SOp.pull, SOp.pull, SOp.pull]
    { initWorld exHealthyPrimary exHealthyFallback false with
        conns := [Conn.fresh .fallback "t"] }
    ⟨0, "fallback", 0⟩ (Conn.fresh .fallback "t") rfl

end Granny
